import Mathlib

/-!
Verification of the standings engine and match ledger of the
simulador-brasileirao repository.

The JavaScript source (src/js/standingsCalculator.js, src/js/matchManager.js,
src/js/matchService.js, src/js/config.js) is shallowly embedded below.
JavaScript numbers holding the integer statistics are modelled as `Int`;
a score input field holding either the empty string (the unset marker)
or an integer is modelled by the `Score` type; the JS `Map` used for
`state.simulatedMatches` is modelled as a function `Int → Option (Int × Int)`
(only `get`/`set`/`delete`/`has` are ever used on it, never iteration, so
insertion order is irrelevant).  `x || 0` on an integer-valued field is the
identity (also at 0), so it is dropped where the field is always an integer;
`parseInt(v) || 0` applied to a value that is either the empty string or an
integer `n` yields 0 resp. `n`, which is `scoreToInt`.
-/

/-- Per-team statistics record (the objects of `state.standings`).
All numeric fields are JS numbers holding integers. -/
structure Team where
  id : Int
  name : String
  points : Int
  games : Int
  victories : Int
  draws : Int
  defeats : Int
  goal_pro : Int
  goal_against : Int
  balance_goals : Int
  position : Int
deriving DecidableEq

/-- A score input field: either the empty string (unset marker) or an integer. -/
inductive Score where
  | unset : Score
  | val : Int → Score
deriving DecidableEq

/-- A match of the current round.  The source stores `homeTeam`/`awayTeam`
objects but only ever reads their `.id`; we embed those ids directly. -/
structure Match where
  id : Int
  homeTeamId : Int
  awayTeamId : Int
  homeScore : Score
  awayScore : Score
deriving DecidableEq

/-- The normalized match result built by `MatchService.createMatchResult`. -/
structure MatchResult where
  matchId : Int
  homeTeamId : Int
  awayTeamId : Int
  homeScore : Int
  awayScore : Int
deriving DecidableEq

/-- `CONFIG.MAX_GOALS` from src/js/config.js. -/
def MAX_GOALS : Int := 20

/-- `parseInt(x) || 0` applied to a score field that holds either the empty
string (`parseInt` gives `NaN`, so `|| 0` gives 0) or an integer `n`
(`parseInt` returns `n`, and `n || 0 = n`, also for `n = 0`). -/
def scoreToInt : Score → Int
  | .unset => 0
  | .val n => n

/-- `MatchService.isMatchComplete`. -/
def isMatchComplete (m : Match) : Bool :=
  m.homeScore ≠ Score.unset && m.awayScore ≠ Score.unset

/-- `MatchService.createMatchResult`. -/
def createMatchResult (m : Match) : MatchResult :=
  { matchId := m.id
    homeTeamId := m.homeTeamId
    awayTeamId := m.awayTeamId
    homeScore := scoreToInt m.homeScore
    awayScore := scoreToInt m.awayScore }

/-- The `result` classification inside `StandingsCalculator.updateTeamStats`. -/
inductive MatchOutcome where
  | win : MatchOutcome
  | loss : MatchOutcome
  | draw : MatchOutcome
deriving DecidableEq

/-- `StandingsCalculator.updateResultStats` (mutates the cloned record in the
source; modelled functionally).  `team.defeats || 0` and `team.draws || 0`
are the identity on integer-valued fields. -/
def updateResultStats (team : Team) (result : MatchOutcome) (multiplier : Int) : Team :=
  match result with
  | .win => { team with victories := team.victories + 1 * multiplier,
                        points := team.points + 3 * multiplier }
  | .loss => { team with defeats := team.defeats + 1 * multiplier }
  | .draw => { team with draws := team.draws + 1 * multiplier,
                         points := team.points + 1 * multiplier }

/-- `StandingsCalculator.updateTeamStats`.  The source deep-clones the team
and mutates the clone; here the updated record is built functionally.
`homeScore > awayScore` is written `awayScore < homeScore`. -/
def updateTeamStats (team : Team) (homeScore awayScore : Int)
    (isHomeTeam : Bool) (multiplier : Int) : Team :=
  let goalsFor := if isHomeTeam then homeScore else awayScore
  let goalsAgainst := if isHomeTeam then awayScore else homeScore
  let t1 : Team := { team with
    games := team.games + 1 * multiplier
    goal_pro := team.goal_pro + goalsFor * multiplier
    goal_against := team.goal_against + goalsAgainst * multiplier }
  let t2 : Team := { t1 with balance_goals := t1.goal_pro - t1.goal_against }
  let result : MatchOutcome :=
    if awayScore < homeScore then (if isHomeTeam then .win else .loss)
    else if homeScore < awayScore then (if isHomeTeam then .loss else .win)
    else .draw
  updateResultStats t2 result multiplier

/-- Goals scored by the team (`goalsFor` in the source). -/
def gFor (h a : Int) (s : Bool) : Int := if s then h else a

/-- Goals conceded by the team (`goalsAgainst` in the source). -/
def gAg (h a : Int) (s : Bool) : Int := if s then a else h

/-- 1 if the result is a win for the given side, else 0. -/
def winCount (h a : Int) (s : Bool) : Int :=
  if a < h then (if s then 1 else 0)
  else if h < a then (if s then 0 else 1)
  else 0

/-- 1 if the match is a draw, else 0. -/
def drawCount (h a : Int) : Int :=
  if a < h then 0 else if h < a then 0 else 1

/-- 1 if the result is a loss for the given side, else 0. -/
def lossCount (h a : Int) (s : Bool) : Int :=
  if a < h then (if s then 0 else 1)
  else if h < a then (if s then 1 else 0)
  else 0

/-- Points awarded to the given side for one match. -/
def ptsFor (h a : Int) (s : Bool) : Int := 3 * winCount h a s + drawCount h a

/-- A team record is well formed when its stored goal balance agrees with its
goal totals; the loader (`TeamService.ensureTeamStats`) establishes this. -/
def Consistent (t : Team) : Prop := t.balance_goals = t.goal_pro - t.goal_against

/-- The sign of `a.name.localeCompare(b.name)`, modelled by the lexicographic
character order on strings (locale-aware collation agrees with it on the
plain-ASCII team names involved). -/
def strCmp (a b : String) : Int :=
  if a.toList < b.toList then -1 else if b.toList < a.toList then 1 else 0

/-- The comparator closure inside `StandingsCalculator.sortStandings`.
`a.goal_against || 0` and `b.goal_against || 0` are the identity on
integer-valued fields. -/
def teamCmp (a b : Team) : Int :=
  if b.points ≠ a.points then b.points - a.points
  else if b.victories ≠ a.victories then b.victories - a.victories
  else if b.balance_goals ≠ a.balance_goals then b.balance_goals - a.balance_goals
  else if b.goal_pro ≠ a.goal_pro then b.goal_pro - a.goal_pro
  else if a.goal_against ≠ b.goal_against then a.goal_against - b.goal_against
  else strCmp a.name b.name

/-- `a` may be placed before `b` by the comparator (comparator value ≤ 0).
An ECMAScript `Array.prototype.sort` with a consistent comparator returns a
list in which every earlier element relates to every later one by this. -/
def teamLe (a b : Team) : Prop := teamCmp a b ≤ 0

instance : DecidableRel teamLe := fun a b => inferInstanceAs (Decidable (teamCmp a b ≤ 0))

/-- The `.map((team, index) => ({ ...team, position: index + 1 }))` step of
`sortStandings`, with the index running from `n`. -/
def assignPositionsFrom (n : Int) : List Team → List Team
  | [] => []
  | t :: rest => { t with position := n } :: assignPositionsFrom (n + 1) rest

/-- `StandingsCalculator.sortStandings`: sort a copy by the comparator and
assign 1-based positions.  JS guarantees only that the output of `.sort` is
sorted w.r.t. the comparator (and stable); it is modelled by the stable
`List.insertionSort`. -/
def sortStandings (standings : List Team) : List Team :=
  assignPositionsFrom 1 (List.insertionSort teamLe standings)

/-- `StandingsCalculator.processMatchResult`. -/
def processMatchResult (standings : List Team) (matchResult : MatchResult)
    (isReversing : Bool) : List Team :=
  let multiplier : Int := if isReversing then -1 else 1
  let newStandings := standings.map fun team =>
    if team.id = matchResult.homeTeamId then
      updateTeamStats team matchResult.homeScore matchResult.awayScore true multiplier
    else if team.id = matchResult.awayTeamId then
      updateTeamStats team matchResult.homeScore matchResult.awayScore false multiplier
    else team
  sortStandings newStandings

/-- One entry of the object returned by
`StandingsCalculator.getPositionChanges`. -/
structure PosChange where
  direction : String
  positionsChanged : Int
deriving DecidableEq

/-- `StandingsCalculator.getPositionChanges`.  The two JS objects used as
dictionaries are modelled as functions updated per iteration (later writes
win, exactly as property assignment does). -/
def getPositionChanges (newStandings oldStandings : List Team) :
    Int → Option PosChange :=
  let oldPositions : Int → Option Int :=
    oldStandings.foldl (fun acc team =>
      fun k => if k = team.id then some team.position else acc k)
      (fun _ => none)
  newStandings.foldl (fun changes team =>
    match oldPositions team.id with
    | none => changes
    | some oldPosition =>
      if team.position ≠ oldPosition then
        fun k => if k = team.id then
          some { direction := if team.position < oldPosition then "up" else "down"
                 positionsChanged := |team.position - oldPosition| }
          else changes k
      else
        fun k => if k = team.id then
          some { direction := "none", positionsChanged := 0 }
          else changes k)
    (fun _ => none)

/-- `state.simulatedMatches`: a `Map` from match id to the last applied
`(homeScore, awayScore)` pair. -/
def Ledger : Type := Int → Option (Int × Int)

/-- `Map.prototype.set`. -/
def ledgerSet (l : Ledger) (k : Int) (v : Int × Int) : Ledger :=
  fun k' => if k' = k then some v else l k'

/-- `Map.prototype.delete`. -/
def ledgerDelete (l : Ledger) (k : Int) : Ledger :=
  fun k' => if k' = k then none else l k'

/-- The fields of the global `state` (src/js/dataManager.js) that the three
MatchManager operations read and write. -/
structure SimState where
  standings : List Team
  roundMatches : List Match
  simulatedMatches : Ledger

/-- The two `if (field === ...)` assignments in
`MatchManager.updateMatchScore`. -/
def setMatchField (m : Match) (field : String) (value : Score) : Match :=
  let m1 := if field = "homeScore" then { m with homeScore := value } else m
  if field = "awayScore" then { m1 with awayScore := value } else m1

/-- In-place mutation of the object found by
`state.matches.find(...)`, seen from the outside: the first list entry whose
id matches is replaced. -/
def replaceFirstMatch : List Match → Int → Match → List Match
  | [], _, _ => []
  | m :: rest, matchId, m' =>
    if m.id = matchId then m' :: rest else m :: replaceFirstMatch rest matchId m'

/-- `MatchManager._reverseMatchResultByValues` (its effect on the standings).
The ledger stores integers, on which `parseInt(x) || 0` is the identity. -/
def reverseMatchResultByValues (standings : List Team) (m : Match)
    (homeScore awayScore : Int) : List Team :=
  processMatchResult standings
    { matchId := m.id
      homeTeamId := m.homeTeamId
      awayTeamId := m.awayTeamId
      homeScore := homeScore
      awayScore := awayScore } true

/-- `MatchManager._applyMatchResult` (its effect on the standings). -/
def applyMatchResult (standings : List Team) (m : Match) : List Team :=
  processMatchResult standings (createMatchResult m) false

/-- `MatchManager.updateMatchScore`.  `String(m.id) === String(matchId)` is
id equality for integer ids. -/
def updateMatchScore (st : SimState) (matchId : Int) (field : String)
    (value : Score) : SimState :=
  match st.roundMatches.find? (fun m => m.id = matchId) with
  | none => st
  | some m0 =>
    let m := setMatchField m0 field value
    let ms' := replaceFirstMatch st.roundMatches matchId m
    if m.homeScore = Score.unset ∨ m.awayScore = Score.unset then
      match st.simulatedMatches m.id with
      | some prev =>
        { standings := reverseMatchResultByValues st.standings m prev.1 prev.2
          roundMatches := ms'
          simulatedMatches := ledgerDelete st.simulatedMatches m.id }
      | none => { st with roundMatches := ms' }
    else
      if isMatchComplete m then
        let s1 := match st.simulatedMatches m.id with
          | some prev => reverseMatchResultByValues st.standings m prev.1 prev.2
          | none => st.standings
        let applied := createMatchResult m
        { standings := processMatchResult s1 applied false
          roundMatches := ms'
          simulatedMatches :=
            ledgerSet st.simulatedMatches m.id (applied.homeScore, applied.awayScore) }
      else { st with roundMatches := ms' }

/-- The `state.matches.forEach` loop body of `MatchManager.clearRound`,
threaded over the list. -/
def clearAux (s : List Team) (l : Ledger) : List Match → List Match × List Team × Ledger
  | [] => ([], s, l)
  | m :: rest =>
    match l m.id with
    | some prev =>
      let s1 := reverseMatchResultByValues s m prev.1 prev.2
      let l1 := ledgerDelete l m.id
      let m1 : Match := { m with homeScore := Score.unset, awayScore := Score.unset }
      let r := clearAux s1 l1 rest
      (m1 :: r.1, r.2.1, r.2.2)
    | none =>
      let r := clearAux s l rest
      (m :: r.1, r.2.1, r.2.2)

/-- `MatchManager.clearRound`. -/
def clearRound (st : SimState) : SimState :=
  let r := clearAux st.standings st.simulatedMatches st.roundMatches
  { standings := r.2.1, roundMatches := r.1, simulatedMatches := r.2.2 }

/-- The `state.matches.forEach` loop body of `MatchManager.simulateRound`.
`sim k` supplies the pair of scores drawn by the two
`Utils.generateRandomScore()` calls of the k-th simulated match (the real
generator yields integers in 0..6; the proofs need no bound). -/
def simAux (sim : Nat → Int × Int) (s : List Team) (l : Ledger) (k : Nat) :
    List Match → List Match × List Team × Ledger
  | [] => ([], s, l)
  | m :: rest =>
    if isMatchComplete m then
      let r := simAux sim s l k rest
      (m :: r.1, r.2.1, r.2.2)
    else
      let res := sim k
      let s1 := match l m.id with
        | some prev => reverseMatchResultByValues s m prev.1 prev.2
        | none => s
      let m1 : Match := { m with homeScore := Score.val res.1, awayScore := Score.val res.2 }
      let s2 := applyMatchResult s1 m1
      let l2 := ledgerSet l m.id (res.1, res.2)
      let r := simAux sim s2 l2 (k + 1) rest
      (m1 :: r.1, r.2.1, r.2.2)

/-- `MatchManager.simulateRound`. -/
def simulateRound (sim : Nat → Int × Int) (st : SimState) : SimState :=
  if st.roundMatches.isEmpty then st
  else
    let r := simAux sim st.standings st.simulatedMatches 0 st.roundMatches
    { standings := r.2.1, roundMatches := r.1, simulatedMatches := r.2.2 }

/-- One MatchLedger operation. -/
inductive LedgerOp where
  | simulate : (Nat → Int × Int) → LedgerOp
  | clear : LedgerOp
  | update : Int → String → Score → LedgerOp

/-- Dispatch one operation. -/
def stepOp (st : SimState) : LedgerOp → SimState
  | .simulate sim => simulateRound sim st
  | .clear => clearRound st
  | .update matchId field value => updateMatchScore st matchId field value

/-- Run a sequence of MatchLedger operations. -/
def runOps (st : SimState) (ops : List LedgerOp) : SimState :=
  ops.foldl stepOp st

/-- The per-team effect of applying one match result forward
(the map body of `processMatchResult` at multiplier +1). -/
def applyResultToTeam (t : Team) (r : MatchResult) : Team :=
  if t.id = r.homeTeamId then updateTeamStats t r.homeScore r.awayScore true 1
  else if t.id = r.awayTeamId then updateTeamStats t r.homeScore r.awayScore false 1
  else t

/-- The per-team effect of reversing one match result
(the map body of `processMatchResult` at multiplier -1). -/
def reverseResultOnTeam (t : Team) (r : MatchResult) : Team :=
  if t.id = r.homeTeamId then updateTeamStats t r.homeScore r.awayScore true (-1)
  else if t.id = r.awayTeamId then updateTeamStats t r.homeScore r.awayScore false (-1)
  else t

/-- The results of the currently complete matches of a round, in order. -/
def completeResults (ms : List Match) : List MatchResult :=
  (ms.filter fun m => isMatchComplete m).map createMatchResult

/-- Apply a list of match results to one team, in order. -/
def applyResults (rs : List MatchResult) (t : Team) : Team :=
  rs.foldl applyResultToTeam t

/-- A team record with its transient `position` erased, for comparing
standings snapshots up to sorting. -/
def coreStats (t : Team) : Team := { t with position := 0 }

/-- The ledger part of the reconciliation invariant: a match has a ledger
entry exactly when it is complete, and the entry holds the integer values of
its current scores. -/
def LedgerInv (st : SimState) : Prop :=
  ∀ m ∈ st.roundMatches,
    (isMatchComplete m = true →
      st.simulatedMatches m.id = some (scoreToInt m.homeScore, scoreToInt m.awayScore)) ∧
    (isMatchComplete m = false → st.simulatedMatches m.id = none)

/-- The standings part of the reconciliation invariant: up to order and
positions, the standings are the initial standings with the result of every
currently complete match applied exactly once. -/
def StandInv (init : List Team) (st : SimState) : Prop :=
  List.Perm (st.standings.map coreStats)
    ((init.map fun t => applyResults (completeResults st.roundMatches) t).map coreStats)

/-- A sequence of direct `updateTeamStats` calls (scores, side, multiplier),
as in the spec's "any sequence of apply/reverse operations" on one team. -/
def applySeq (ops : List (Int × Int × Bool × Int)) (t : Team) : Team :=
  ops.foldl (fun t o => updateTeamStats t o.1 o.2.1 o.2.2.1 o.2.2.2) t

/-- The spec's sort key precedence, first differing key wins: points desc,
victories desc, balance desc, goals-for desc, goals-against asc, then name
ascending.  `keyPrecedes a b` states that `a` may come (weakly) before `b`. -/
def keyPrecedes (a b : Team) : Prop :=
  b.points < a.points ∨ (a.points = b.points ∧
    (b.victories < a.victories ∨ (a.victories = b.victories ∧
      (b.balance_goals < a.balance_goals ∨ (a.balance_goals = b.balance_goals ∧
        (b.goal_pro < a.goal_pro ∨ (a.goal_pro = b.goal_pro ∧
          (a.goal_against < b.goal_against ∨ (a.goal_against = b.goal_against ∧
            a.name ≤ b.name)))))))))

/-- The six-component lexicographic sort key of a team (descending components
negated). -/
def teamKey (t : Team) :
    Lex (Int × Lex (Int × Lex (Int × Lex (Int × Lex (Int × String))))) :=
  toLex (-t.points, toLex (-t.victories, toLex (-t.balance_goals,
    toLex (-t.goal_pro, toLex (t.goal_against, t.name)))))

/-- A placeholder team (used only as the default of `List.getD`). -/
def defaultTeam : Team :=
  { id := 0, name := "", points := 0, games := 0, victories := 0, draws := 0,
    defeats := 0, goal_pro := 0, goal_against := 0, balance_goals := 0, position := 0 }

/-- ECMAScript `StrWhiteSpaceChar` (the characters `parseInt` skips). -/
def isJsWhitespace (c : Char) : Bool :=
  c = ' ' || c = '\t' || c = '\n' || c = '\r' ||
  c = '\x0b' || c = '\x0c' || c = '\u00A0' || c = '\uFEFF'

/-- Decimal digit test. -/
def isDigit10 (c : Char) : Bool := '0' ≤ c && c ≤ '9'

/-- Hexadecimal digit test. -/
def isDigit16 (c : Char) : Bool :=
  isDigit10 c || ('a' ≤ c && c ≤ 'f') || ('A' ≤ c && c ≤ 'F')

/-- Numeric value of a (decimal or hexadecimal) digit character. -/
def digitVal (c : Char) : Int :=
  if isDigit10 c then (c.toNat : Int) - ('0'.toNat : Int)
  else if 'a' ≤ c && c ≤ 'f' then (c.toNat : Int) - ('a'.toNat : Int) + 10
  else if 'A' ≤ c && c ≤ 'F' then (c.toNat : Int) - ('A'.toNat : Int) + 10
  else 0

/-- Leading-whitespace skipping of `parseInt`. -/
def jsSkipWs (l : List Char) : List Char := l.dropWhile isJsWhitespace

/-- The sign read by `parseInt` (from an optional leading minus). -/
def jsSign (l : List Char) : Int := if l.head? = some '-' then -1 else 1

/-- The characters after the optional sign. -/
def jsAfterSign (l : List Char) : List Char :=
  if l.head? = some '-' || l.head? = some '+' then l.tail else l

/-- Detection of a `0x`/`0X` prefix (radix 16). -/
def jsIsHex (l : List Char) : Bool :=
  l.head? = some '0' && (l.tail.head? = some 'x' || l.tail.head? = some 'X')

/-- ECMAScript `parseInt(s)` with the radix argument omitted: skip leading
whitespace, read an optional sign, detect a `0x`/`0X` prefix (radix 16, else
10), then take the longest prefix of digits of that radix; `none` models
`NaN` (no digit found).  Values are exact integers (the float rounding of
huge results is irrelevant to the bounds checked here). -/
def parseIntJS (s : String) : Option Int :=
  let cs := jsSkipWs s.toList
  let cs1 := jsAfterSign cs
  let cs2 := if jsIsHex cs1 then cs1.tail.tail else cs1
  let digits := cs2.takeWhile (if jsIsHex cs1 then isDigit16 else isDigit10)
  if digits.isEmpty then none
  else some (jsSign cs *
    digits.foldl (fun acc c => acc * (if jsIsHex cs1 then 16 else 10) + digitVal c) 0)

/-- `MatchService.isValidScore`. -/
def isValidScore (score : String) : Bool :=
  if score = "" then true
  else
    match parseIntJS score with
    | none => false
    | some numValue => decide (0 ≤ numValue) && decide (numValue ≤ MAX_GOALS)

/-- Modelled from the spec: a nonempty run of decimal digit characters. -/
def decimalDigits (l : List Char) : Bool :=
  !l.isEmpty && l.all isDigit10

/-- Modelled from the spec: the integer denoted by a run of decimal digits. -/
def decimalValue (l : List Char) : Int :=
  l.foldl (fun acc c => acc * 10 + digitVal c) 0

/-- Modelled from the spec: `s` is the decimal notation of an integer
(optional leading minus sign followed by digits only). -/
def isDecimalIntString (s : String) : Bool :=
  match s.toList with
  | '-' :: r => decimalDigits r
  | l => decimalDigits l

/-- Modelled from the spec: the integer denoted by a decimal integer string. -/
def decimalIntValue (s : String) : Int :=
  match s.toList with
  | '-' :: r => -(decimalValue r)
  | l => decimalValue l



/-! ### Basic algebra of `updateTeamStats` -/

theorem updateTeamStats_eq (t : Team) (h a : Int) (s : Bool) (m : Int) :
    updateTeamStats t h a s m =
      { id := t.id
        name := t.name
        points := t.points + ptsFor h a s * m
        games := t.games + m
        victories := t.victories + winCount h a s * m
        draws := t.draws + drawCount h a * m
        defeats := t.defeats + lossCount h a s * m
        goal_pro := t.goal_pro + gFor h a s * m
        goal_against := t.goal_against + gAg h a s * m
        balance_goals := (t.goal_pro + gFor h a s * m) - (t.goal_against + gAg h a s * m)
        position := t.position } := by
  cases s <;>
    simp only [updateTeamStats, updateResultStats, gFor, gAg, winCount, drawCount,
      lossCount, ptsFor, if_true, if_false, Bool.false_eq_true] <;>
    split_ifs <;>
    simp_all [Team.mk.injEq]

theorem updateTeamStats_inverse (t : Team) (h a : Int) (s : Bool) (m : Int)
    (hc : Consistent t) :
    updateTeamStats (updateTeamStats t h a s m) h a s (-m) = t := by
  obtain ⟨i, n, p, g, v, d, f, gp, ga, b, pos⟩ := t
  simp only [Consistent] at hc
  simp [updateTeamStats_eq, Team.mk.injEq]
  omega

theorem updateTeamStats_comm (t : Team) (h1 a1 h2 a2 : Int) (s1 s2 : Bool) (m1 m2 : Int) :
    updateTeamStats (updateTeamStats t h1 a1 s1 m1) h2 a2 s2 m2 =
      updateTeamStats (updateTeamStats t h2 a2 s2 m2) h1 a1 s1 m1 := by
  simp [updateTeamStats_eq, Team.mk.injEq]
  omega

theorem updateTeamStats_consistent (t : Team) (h a : Int) (s : Bool) (m : Int) :
    Consistent (updateTeamStats t h a s m) := by
  simp [updateTeamStats_eq, Consistent]

theorem updateTeamStats_id (t : Team) (h a : Int) (s : Bool) (m : Int) :
    (updateTeamStats t h a s m).id = t.id := by
  simp [updateTeamStats_eq]

theorem updateTeamStats_invariants (t : Team) (h a : Int) (s : Bool) (m : Int)
    (h1 : t.points = 3 * t.victories + t.draws)
    (h2 : t.games = t.victories + t.draws + t.defeats)
    (h3 : t.balance_goals = t.goal_pro - t.goal_against) :
    (updateTeamStats t h a s m).points =
        3 * (updateTeamStats t h a s m).victories + (updateTeamStats t h a s m).draws ∧
    (updateTeamStats t h a s m).games =
        (updateTeamStats t h a s m).victories + (updateTeamStats t h a s m).draws +
          (updateTeamStats t h a s m).defeats ∧
    (updateTeamStats t h a s m).balance_goals =
        (updateTeamStats t h a s m).goal_pro - (updateTeamStats t h a s m).goal_against := by
  simp only [updateTeamStats_eq, ptsFor, winCount, drawCount, lossCount, gFor, gAg]
  split_ifs <;> simp <;> omega

theorem applySeq_invariants (ops : List (Int × Int × Bool × Int)) :
    ∀ t : Team,
      t.points = 3 * t.victories + t.draws →
      t.games = t.victories + t.draws + t.defeats →
      t.balance_goals = t.goal_pro - t.goal_against →
      (applySeq ops t).points = 3 * (applySeq ops t).victories + (applySeq ops t).draws ∧
      (applySeq ops t).games =
          (applySeq ops t).victories + (applySeq ops t).draws + (applySeq ops t).defeats ∧
      (applySeq ops t).balance_goals =
          (applySeq ops t).goal_pro - (applySeq ops t).goal_against := by
  induction ops with
  | nil => intro t h1 h2 h3; exact ⟨h1, h2, h3⟩
  | cons o ops ih =>
    intro t h1 h2 h3
    have step := updateTeamStats_invariants t o.1 o.2.1 o.2.2.1 o.2.2.2 h1 h2 h3
    simpa [applySeq] using ih _ step.1 step.2.1 step.2.2

/-- Claim C2, counterexample: the exact round-trip fails on a record whose
stored `balance_goals` disagrees with its goal totals — the reverse pass
recomputes `balance_goals` from the goal totals instead of restoring the
stored value 5. -/
theorem c2_roundtrip_counterexample :
    updateTeamStats (updateTeamStats
      { id := 1, name := "A", points := 0, games := 0, victories := 0, draws := 0,
        defeats := 0, goal_pro := 0, goal_against := 0, balance_goals := 5,
        position := 0 } 2 1 true 1) 2 1 true (-1) ≠
      { id := 1, name := "A", points := 0, games := 0, victories := 0, draws := 0,
        defeats := 0, goal_pro := 0, goal_against := 0, balance_goals := 5,
        position := 0 } := by
  decide

/-- Claim C2 (amended): for every team stats record whose stored
`balance_goals` equals `goal_pro - goal_against` (as every record produced by
the loader or by `updateTeamStats` itself does), applying the stats delta with
multiplier +1 and then with multiplier -1 at the same scores and side yields
the original record exactly, field by field. -/
theorem c2_roundtrip (t : Team) (h a : Int) (s : Bool) (hc : Consistent t) :
    updateTeamStats (updateTeamStats t h a s 1) h a s (-1) = t :=
  updateTeamStats_inverse t h a s 1 hc

/-- Witness for C2 at a concrete consistent record. -/
theorem c2_roundtrip_witness :
    Consistent defaultTeam ∧
      updateTeamStats (updateTeamStats defaultTeam 2 1 true 1) 2 1 true (-1) = defaultTeam :=
  ⟨rfl, c2_roundtrip defaultTeam 2 1 true rfl⟩

/-- Claim C4: a single `updateTeamStats` call (any scores, either side, any
integer multiplier, in particular +1 and -1) preserves the three stat
equations, and hence any sequence of apply/reverse operations started from a
conforming record keeps `points = 3*victories + draws`. -/
theorem c4_stats_invariants (t : Team) (h a : Int) (s : Bool) (m : Int)
    (ops : List (Int × Int × Bool × Int))
    (h1 : t.points = 3 * t.victories + t.draws)
    (h2 : t.games = t.victories + t.draws + t.defeats)
    (h3 : t.balance_goals = t.goal_pro - t.goal_against) :
    ((updateTeamStats t h a s m).points =
        3 * (updateTeamStats t h a s m).victories + (updateTeamStats t h a s m).draws ∧
      (updateTeamStats t h a s m).games =
        (updateTeamStats t h a s m).victories + (updateTeamStats t h a s m).draws +
          (updateTeamStats t h a s m).defeats ∧
      (updateTeamStats t h a s m).balance_goals =
        (updateTeamStats t h a s m).goal_pro - (updateTeamStats t h a s m).goal_against) ∧
    (applySeq ops t).points = 3 * (applySeq ops t).victories + (applySeq ops t).draws :=
  ⟨updateTeamStats_invariants t h a s m h1 h2 h3,
   (applySeq_invariants ops t h1 h2 h3).1⟩

/-- Witness for C4 at a concrete conforming record and operation sequence. -/
theorem c4_stats_invariants_witness :
    (defaultTeam.points = 3 * defaultTeam.victories + defaultTeam.draws ∧
      defaultTeam.games = defaultTeam.victories + defaultTeam.draws + defaultTeam.defeats ∧
      defaultTeam.balance_goals = defaultTeam.goal_pro - defaultTeam.goal_against) ∧
    (applySeq [(2, 1, true, 1), (2, 1, true, -1)] defaultTeam).points =
      3 * (applySeq [(2, 1, true, 1), (2, 1, true, -1)] defaultTeam).victories +
        (applySeq [(2, 1, true, 1), (2, 1, true, -1)] defaultTeam).draws :=
  ⟨⟨by decide, by decide, by decide⟩,
   (c4_stats_invariants defaultTeam 2 1 true 1 [(2, 1, true, 1), (2, 1, true, -1)]
      (by decide) (by decide) (by decide)).2⟩

/-! ### The sort order -/

theorem strCmp_nonpos_iff (a b : String) : strCmp a b ≤ 0 ↔ a ≤ b := by
  unfold strCmp
  rw [String.le_iff_toList_le]
  split_ifs with h1 h2
  · constructor
    · intro _; exact le_of_lt h1
    · intro _; norm_num
  · constructor
    · intro h; norm_num at h
    · intro h; exact absurd h (not_le.mpr h2)
  · have hab : a.toList = b.toList := le_antisymm (not_lt.mp h2) (not_lt.mp h1)
    exact iff_of_true (by norm_num) (le_of_eq hab)

theorem teamCmp_nonpos_iff (a b : Team) : teamCmp a b ≤ 0 ↔ keyPrecedes a b := by
  unfold teamCmp keyPrecedes
  by_cases h1 : a.points = b.points
  · by_cases h2 : a.victories = b.victories
    · by_cases h3 : a.balance_goals = b.balance_goals
      · by_cases h4 : a.goal_pro = b.goal_pro
        · by_cases h5 : a.goal_against = b.goal_against
          · simp [h1, h2, h3, h4, h5, strCmp_nonpos_iff]
          · simp only [h1, h2, h3, h4]
            simp [h5]
            omega
        · simp only [h1, h2, h3]
          simp [h4, Ne.symm h4]
          omega
      · simp only [h1, h2]
        simp [h3, Ne.symm h3]
        omega
    · simp only [h1]
      simp [h2, Ne.symm h2]
      omega
  · simp [h1, Ne.symm h1]
    omega

theorem keyPrecedes_iff_teamKey (a b : Team) :
    keyPrecedes a b ↔ teamKey a ≤ teamKey b := by
  unfold keyPrecedes teamKey
  simp only [Prod.Lex.le_iff, neg_lt_neg_iff, neg_inj]

theorem teamLe_iff_key (a b : Team) : teamLe a b ↔ teamKey a ≤ teamKey b :=
  (teamCmp_nonpos_iff a b).trans (keyPrecedes_iff_teamKey a b)

instance : IsTrans Team teamLe :=
  ⟨fun a b c hab hbc => (teamLe_iff_key a c).mpr
    (le_trans ((teamLe_iff_key a b).mp hab) ((teamLe_iff_key b c).mp hbc))⟩

instance : IsTotal Team teamLe :=
  ⟨fun a b => (le_total (teamKey a) (teamKey b)).imp
    (teamLe_iff_key a b).mpr (teamLe_iff_key b a).mpr⟩

theorem assignPositionsFrom_map_core (n : Int) (l : List Team) :
    (assignPositionsFrom n l).map coreStats = l.map coreStats := by
  induction l generalizing n with
  | nil => rfl
  | cons t rest ih => simp [assignPositionsFrom, coreStats, ih]

theorem assignPositionsFrom_length (n : Int) (l : List Team) :
    (assignPositionsFrom n l).length = l.length := by
  induction l generalizing n with
  | nil => rfl
  | cons t rest ih => simp [assignPositionsFrom, ih]

theorem assignPositionsFrom_getD (l : List Team) :
    ∀ (n : Int) (i : Nat), i < l.length →
      ((assignPositionsFrom n l).getD i defaultTeam).position = n + i := by
  induction l with
  | nil => intro n i hi; simp at hi
  | cons t rest ih =>
    intro n i hi
    cases i with
    | zero => simp [assignPositionsFrom]
    | succ j =>
      have := ih (n + 1) j (by simpa using Nat.lt_of_succ_lt_succ hi)
      simp only [assignPositionsFrom, List.getD_cons_succ]
      rw [this]
      push_cast
      ring

theorem mem_assignPositionsFrom {b : Team} :
    ∀ (n : Int) (l : List Team), b ∈ assignPositionsFrom n l →
      ∃ u ∈ l, ∃ k : Int, b = { u with position := k } := by
  intro n l
  induction l generalizing n with
  | nil => intro h; simp [assignPositionsFrom] at h
  | cons t rest ih =>
    intro h
    simp only [assignPositionsFrom, List.mem_cons] at h
    rcases h with h | h
    · exact ⟨t, List.mem_cons_self t rest, n, h⟩
    · obtain ⟨u, hu, k, hb⟩ := ih (n + 1) h
      exact ⟨u, List.mem_cons_of_mem t hu, k, hb⟩

theorem keyPrecedes_position (t u : Team) (n k : Int) :
    keyPrecedes { t with position := n } { u with position := k } ↔ keyPrecedes t u :=
  Iff.rfl

theorem assignPositionsFrom_pairwise (l : List Team) :
    ∀ n : Int, l.Pairwise teamLe →
      (assignPositionsFrom n l).Pairwise keyPrecedes := by
  induction l with
  | nil => intro n _; simp [assignPositionsFrom]
  | cons t rest ih =>
    intro n h
    rw [List.pairwise_cons] at h
    simp only [assignPositionsFrom, List.pairwise_cons]
    constructor
    · intro b hb
      obtain ⟨u, hu, k, rfl⟩ := mem_assignPositionsFrom (n + 1) rest hb
      exact (keyPrecedes_position t u n k).mpr ((teamCmp_nonpos_iff t u).mp (h.1 u hu))
    · exact ih (n + 1) h.2

theorem sortStandings_core_perm (l : List Team) :
    List.Perm ((sortStandings l).map coreStats) (l.map coreStats) := by
  unfold sortStandings
  rw [assignPositionsFrom_map_core]
  exact (List.perm_insertionSort teamLe l).map coreStats

theorem sortStandings_pairwise (l : List Team) :
    (sortStandings l).Pairwise keyPrecedes :=
  assignPositionsFrom_pairwise (List.insertionSort teamLe l) 1
    (List.sorted_insertionSort teamLe l)

theorem sortStandings_getD_position (l : List Team) (i : Nat)
    (hi : i < (sortStandings l).length) :
    ((sortStandings l).getD i defaultTeam).position = (i : Int) + 1 := by
  unfold sortStandings at hi ⊢
  rw [assignPositionsFrom_length] at hi
  rw [assignPositionsFrom_getD (List.insertionSort teamLe l) 1 i hi]
  ring

/-- Claim C3: `sortStandings` orders every standings collection by the exact
key precedence points desc, victories desc, balance desc, goals-for desc,
goals-against asc, then name ascending (first differing key wins); it is a
permutation of the input up to the transient `position` field; every output
entry gets `position = index + 1`; and on the tie-break scenario the team
named "Flamengo" is placed before the one named "Santos". -/
theorem c3_sortStandings_order (l : List Team) :
    (sortStandings l).Pairwise keyPrecedes ∧
    List.Perm ((sortStandings l).map coreStats) (l.map coreStats) ∧
    (∀ i : Nat, i < (sortStandings l).length →
      ((sortStandings l).getD i defaultTeam).position = (i : Int) + 1) ∧
    (sortStandings
        [{ id := 1, name := "Santos", points := 10, games := 8, victories := 3, draws := 1,
           defeats := 4, goal_pro := 5, goal_against := 5, balance_goals := 0, position := 0 },
         { id := 2, name := "Flamengo", points := 10, games := 8, victories := 3, draws := 1,
           defeats := 4, goal_pro := 5, goal_against := 5, balance_goals := 0, position := 0 }]).map
        (fun t => (t.name, t.position)) =
      [("Flamengo", 1), ("Santos", 2)] :=
  ⟨sortStandings_pairwise l, sortStandings_core_perm l,
   sortStandings_getD_position l, by decide⟩

/-- Witness for C3: the position-assignment clause applied at a concrete
standings list and index. -/
theorem c3_sortStandings_order_witness :
    0 < (sortStandings [defaultTeam]).length ∧
      ((sortStandings [defaultTeam]).getD 0 defaultTeam).position = (0 : Int) + 1 :=
  ⟨by decide, (c3_sortStandings_order [defaultTeam]).2.2.1 0 (by decide)⟩

/-! ### Pass-through of unknown teams (C8) -/

theorem map_skip_unknown (mr : MatchResult) (mult : Int) (l : List Team)
    (h : ∀ t ∈ l, t.id ≠ mr.homeTeamId ∧ t.id ≠ mr.awayTeamId) :
    (l.map fun team =>
      if team.id = mr.homeTeamId then
        updateTeamStats team mr.homeScore mr.awayScore true mult
      else if team.id = mr.awayTeamId then
        updateTeamStats team mr.homeScore mr.awayScore false mult
      else team) = l := by
  induction l with
  | nil => rfl
  | cons t rest ih =>
    have ht := h t (List.mem_cons_self t rest)
    simp only [List.map_cons, if_neg ht.1, if_neg ht.2]
    rw [ih fun u hu => h u (List.mem_cons_of_mem t hu)]

/-- Claim C8: applying a match result whose team ids match no team in the
standings is not an error: every team passes through with its stats fields
untouched and only the sort and position assignment happen, i.e. the result
is exactly `sortStandings` of the input. -/
theorem c8_unknown_team_ids (standings : List Team) (mr : MatchResult)
    (isReversing : Bool)
    (h : ∀ t ∈ standings, t.id ≠ mr.homeTeamId ∧ t.id ≠ mr.awayTeamId) :
    processMatchResult standings mr isReversing = sortStandings standings := by
  unfold processMatchResult
  dsimp only
  rw [map_skip_unknown mr _ standings h]

/-- Witness for C8 at a concrete standings list and unknown-team result. -/
theorem c8_unknown_team_ids_witness :
    (∀ t ∈ [defaultTeam], t.id ≠ (5 : Int) ∧ t.id ≠ (6 : Int)) ∧
      processMatchResult [defaultTeam]
          { matchId := 1, homeTeamId := 5, awayTeamId := 6, homeScore := 2, awayScore := 1 }
          false =
        sortStandings [defaultTeam] :=
  ⟨by decide,
   c8_unknown_team_ids [defaultTeam]
     { matchId := 1, homeTeamId := 5, awayTeamId := 6, homeScore := 2, awayScore := 1 }
     false (by decide)⟩

/-! ### Position changes (C6) -/

theorem oldPositions_skip (old : List Team) :
    ∀ (acc : Int → Option Int) (k : Int), (∀ t ∈ old, t.id ≠ k) →
      (old.foldl (fun acc team =>
        fun k' => if k' = team.id then some team.position else acc k') acc) k = acc k := by
  induction old with
  | nil => intro acc k _; rfl
  | cons t rest ih =>
    intro acc k h
    have ht := h t (List.mem_cons_self t rest)
    simp only [List.foldl_cons]
    rw [ih _ k fun u hu => h u (List.mem_cons_of_mem t hu)]
    simp [Ne.symm ht]

theorem oldPositions_mem (old : List Team) :
    ∀ (acc : Int → Option Int) (t : Team), t ∈ old → (old.map Team.id).Nodup →
      (old.foldl (fun acc team =>
        fun k' => if k' = team.id then some team.position else acc k') acc) t.id =
        some t.position := by
  induction old with
  | nil => intro acc t ht _; simp at ht
  | cons u rest ih =>
    intro acc t ht hnd
    simp only [List.map_cons, List.nodup_cons] at hnd
    rcases List.mem_cons.mp ht with rfl | ht'
    · simp only [List.foldl_cons]
      rw [oldPositions_skip rest _ t.id
        fun v hv hvid => hnd.1 (hvid ▸ List.mem_map_of_mem Team.id hv)]
      simp
    · exact ih _ t ht' hnd.2

theorem changes_skip (g : Int → Option Int) (new : List Team) :
    ∀ (acc : Int → Option PosChange) (k : Int), (∀ t ∈ new, t.id ≠ k) →
      (new.foldl (fun changes team =>
        match g team.id with
        | none => changes
        | some oldPosition =>
          if team.position ≠ oldPosition then
            fun k' => if k' = team.id then
              some { direction := if team.position < oldPosition then "up" else "down"
                     positionsChanged := |team.position - oldPosition| }
              else changes k'
          else
            fun k' => if k' = team.id then
              some { direction := "none", positionsChanged := 0 }
              else changes k') acc) k = acc k := by
  induction new with
  | nil => intro acc k _; rfl
  | cons t rest ih =>
    intro acc k h
    have ht := h t (List.mem_cons_self t rest)
    simp only [List.foldl_cons]
    rw [ih _ k fun u hu => h u (List.mem_cons_of_mem t hu)]
    cases g t.id with
    | none => rfl
    | some p =>
      by_cases hp : t.position = p <;> simp [hp, Ne.symm ht]

theorem changes_key_none (g : Int → Option Int) (new : List Team) :
    ∀ (acc : Int → Option PosChange) (k : Int), g k = none →
      (new.foldl (fun changes team =>
        match g team.id with
        | none => changes
        | some oldPosition =>
          if team.position ≠ oldPosition then
            fun k' => if k' = team.id then
              some { direction := if team.position < oldPosition then "up" else "down"
                     positionsChanged := |team.position - oldPosition| }
              else changes k'
          else
            fun k' => if k' = team.id then
              some { direction := "none", positionsChanged := 0 }
              else changes k') acc) k = acc k := by
  induction new with
  | nil => intro acc k _; rfl
  | cons t rest ih =>
    intro acc k hg
    simp only [List.foldl_cons]
    rw [ih _ k hg]
    by_cases hid : t.id = k
    · rw [hid, hg]
    · cases hgt : g t.id with
      | none => rfl
      | some p =>
        by_cases hp : t.position = p <;> simp [hp, Ne.symm hid]

theorem changes_mem_some (g : Int → Option Int) (new : List Team) :
    ∀ (acc : Int → Option PosChange) (t : Team) (p : Int), t ∈ new →
      (new.map Team.id).Nodup → g t.id = some p →
      (new.foldl (fun changes team =>
        match g team.id with
        | none => changes
        | some oldPosition =>
          if team.position ≠ oldPosition then
            fun k' => if k' = team.id then
              some { direction := if team.position < oldPosition then "up" else "down"
                     positionsChanged := |team.position - oldPosition| }
              else changes k'
          else
            fun k' => if k' = team.id then
              some { direction := "none", positionsChanged := 0 }
              else changes k') acc) t.id =
        some (if t.position ≠ p then
          { direction := if t.position < p then "up" else "down"
            positionsChanged := |t.position - p| }
          else { direction := "none", positionsChanged := 0 }) := by
  induction new with
  | nil => intro acc t p ht _ _; simp at ht
  | cons u rest ih =>
    intro acc t p ht hnd hg
    simp only [List.map_cons, List.nodup_cons] at hnd
    rcases List.mem_cons.mp ht with rfl | ht'
    · simp only [List.foldl_cons]
      rw [changes_skip g rest _ t.id
        fun v hv hvid => hnd.1 (hvid ▸ List.mem_map_of_mem Team.id hv)]
      rw [hg]
      by_cases hp : t.position = p <;> simp [hp]
    · exact ih _ t p ht' hnd.2 hg

/-- Claim C6: `getPositionChanges` maps exactly the team ids present in both
snapshots; equal positions give direction "none" with delta 0, a smaller new
position gives "up" with delta `old - new`, otherwise "down" with delta
`new - old`; ids absent from the old snapshot (or from the new one) have no
entry. -/
theorem c6_getPositionChanges (newStandings oldStandings : List Team)
    (hnew : (newStandings.map Team.id).Nodup)
    (hold : (oldStandings.map Team.id).Nodup) :
    (∀ tn ∈ newStandings, ∀ tOld ∈ oldStandings, tOld.id = tn.id →
      getPositionChanges newStandings oldStandings tn.id =
        some (if tn.position = tOld.position then
            { direction := "none", positionsChanged := 0 }
          else if tn.position < tOld.position then
            { direction := "up", positionsChanged := tOld.position - tn.position }
          else
            { direction := "down", positionsChanged := tn.position - tOld.position })) ∧
    (∀ k : Int, (∀ tOld ∈ oldStandings, tOld.id ≠ k) →
      getPositionChanges newStandings oldStandings k = none) ∧
    (∀ k : Int, (∀ tn ∈ newStandings, tn.id ≠ k) →
      getPositionChanges newStandings oldStandings k = none) := by
  refine ⟨?_, ?_, ?_⟩
  · intro tn htn tOld htOld hid
    unfold getPositionChanges
    have hg : (oldStandings.foldl (fun acc team =>
        fun k' => if k' = team.id then some team.position else acc k')
        (fun _ => none)) tn.id = some tOld.position := by
      rw [← hid]; exact oldPositions_mem oldStandings _ tOld htOld hold
    rw [changes_mem_some _ newStandings _ tn tOld.position htn hnew hg]
    by_cases hp : tn.position = tOld.position
    · simp [hp]
    · by_cases hlt : tn.position < tOld.position
      · simp only [ne_eq, hp, not_false_eq_true, if_true, hlt, if_false]
        rw [abs_of_neg (show tn.position - tOld.position < 0 by omega), neg_sub]
      · simp only [ne_eq, hp, not_false_eq_true, if_true, hlt, if_false]
        rw [abs_of_nonneg (show (0 : Int) ≤ tn.position - tOld.position by omega)]
  · intro k hk
    unfold getPositionChanges
    have hg := oldPositions_skip oldStandings (fun _ => none) k hk
    rw [changes_key_none _ newStandings _ k hg]
  · intro k hk
    unfold getPositionChanges
    rw [changes_skip _ newStandings _ k hk]

/-- Witness for C6 on the spec's scenario: old `[A:1, B:2, C:3]`, new
`[B:1, A:2, C:3]` gives A down by 1, and an id absent from the old snapshot
gets no entry. -/
theorem c6_getPositionChanges_witness :
    getPositionChanges
        [{ defaultTeam with id := 2, position := 1 },
         { defaultTeam with id := 1, position := 2 },
         { defaultTeam with id := 3, position := 3 }]
        [{ defaultTeam with id := 1, position := 1 },
         { defaultTeam with id := 2, position := 2 },
         { defaultTeam with id := 3, position := 3 }] 1 =
      some { direction := "down", positionsChanged := 1 } ∧
    getPositionChanges
        [{ defaultTeam with id := 2, position := 1 },
         { defaultTeam with id := 1, position := 2 },
         { defaultTeam with id := 3, position := 3 }]
        [{ defaultTeam with id := 1, position := 1 },
         { defaultTeam with id := 2, position := 2 },
         { defaultTeam with id := 3, position := 3 }] 7 = none := by
  constructor
  · have h := (c6_getPositionChanges
      [{ defaultTeam with id := 2, position := 1 },
       { defaultTeam with id := 1, position := 2 },
       { defaultTeam with id := 3, position := 3 }]
      [{ defaultTeam with id := 1, position := 1 },
       { defaultTeam with id := 2, position := 2 },
       { defaultTeam with id := 3, position := 3 }] (by decide) (by decide)).1
      { defaultTeam with id := 1, position := 2 } (by decide)
      { defaultTeam with id := 1, position := 1 } (by decide) (by decide)
    simpa using h
  · exact (c6_getPositionChanges
      [{ defaultTeam with id := 2, position := 1 },
       { defaultTeam with id := 1, position := 2 },
       { defaultTeam with id := 3, position := 3 }]
      [{ defaultTeam with id := 1, position := 1 },
       { defaultTeam with id := 2, position := 2 },
       { defaultTeam with id := 3, position := 3 }] (by decide) (by decide)).2.1
      7 (by decide)

/-! ### Per-team result algebra -/

theorem applyResultToTeam_id (t : Team) (r : MatchResult) :
    (applyResultToTeam t r).id = t.id := by
  unfold applyResultToTeam
  split_ifs <;> simp [updateTeamStats_eq]

theorem updateTeamStats_idField (t : Team) (h a : Int) (s : Bool) (m : Int) :
    (updateTeamStats t h a s m).id = t.id := by
  simp [updateTeamStats_eq]

theorem applyResultToTeam_home (u : Team) (r : MatchResult) (h : u.id = r.homeTeamId) :
    applyResultToTeam u r = updateTeamStats u r.homeScore r.awayScore true 1 := by
  unfold applyResultToTeam; rw [if_pos h]

theorem applyResultToTeam_away (u : Team) (r : MatchResult)
    (h1 : ¬u.id = r.homeTeamId) (h2 : u.id = r.awayTeamId) :
    applyResultToTeam u r = updateTeamStats u r.homeScore r.awayScore false 1 := by
  unfold applyResultToTeam; rw [if_neg h1, if_pos h2]

theorem applyResultToTeam_skip (u : Team) (r : MatchResult)
    (h1 : ¬u.id = r.homeTeamId) (h2 : ¬u.id = r.awayTeamId) :
    applyResultToTeam u r = u := by
  unfold applyResultToTeam; rw [if_neg h1, if_neg h2]

theorem reverseResultOnTeam_home (u : Team) (r : MatchResult) (h : u.id = r.homeTeamId) :
    reverseResultOnTeam u r = updateTeamStats u r.homeScore r.awayScore true (-1) := by
  unfold reverseResultOnTeam; rw [if_pos h]

theorem reverseResultOnTeam_away (u : Team) (r : MatchResult)
    (h1 : ¬u.id = r.homeTeamId) (h2 : u.id = r.awayTeamId) :
    reverseResultOnTeam u r = updateTeamStats u r.homeScore r.awayScore false (-1) := by
  unfold reverseResultOnTeam; rw [if_neg h1, if_pos h2]

theorem reverseResultOnTeam_skip (u : Team) (r : MatchResult)
    (h1 : ¬u.id = r.homeTeamId) (h2 : ¬u.id = r.awayTeamId) :
    reverseResultOnTeam u r = u := by
  unfold reverseResultOnTeam; rw [if_neg h1, if_neg h2]

theorem applyResultToTeam_comm (t : Team) (r1 r2 : MatchResult) :
    applyResultToTeam (applyResultToTeam t r1) r2 =
      applyResultToTeam (applyResultToTeam t r2) r1 := by
  by_cases h1 : t.id = r1.homeTeamId
  · rw [applyResultToTeam_home t r1 h1]
    by_cases h3 : t.id = r2.homeTeamId
    · rw [applyResultToTeam_home t r2 h3,
        applyResultToTeam_home _ r2 ((updateTeamStats_idField ..).trans h3),
        applyResultToTeam_home _ r1 ((updateTeamStats_idField ..).trans h1),
        updateTeamStats_comm]
    · by_cases h4 : t.id = r2.awayTeamId
      · rw [applyResultToTeam_away t r2 h3 h4,
          applyResultToTeam_away _ r2 (fun hh => h3 ((updateTeamStats_idField ..).symm.trans hh))
            ((updateTeamStats_idField ..).trans h4),
          applyResultToTeam_home _ r1 ((updateTeamStats_idField ..).trans h1),
          updateTeamStats_comm]
      · rw [applyResultToTeam_skip t r2 h3 h4,
          applyResultToTeam_skip _ r2 (fun hh => h3 ((updateTeamStats_idField ..).symm.trans hh))
            (fun hh => h4 ((updateTeamStats_idField ..).symm.trans hh)),
          applyResultToTeam_home t r1 h1]
  · by_cases h2 : t.id = r1.awayTeamId
    · rw [applyResultToTeam_away t r1 h1 h2]
      by_cases h3 : t.id = r2.homeTeamId
      · rw [applyResultToTeam_home t r2 h3,
          applyResultToTeam_home _ r2 ((updateTeamStats_idField ..).trans h3),
          applyResultToTeam_away _ r1 (fun hh => h1 ((updateTeamStats_idField ..).symm.trans hh))
            ((updateTeamStats_idField ..).trans h2),
          updateTeamStats_comm]
      · by_cases h4 : t.id = r2.awayTeamId
        · rw [applyResultToTeam_away t r2 h3 h4,
            applyResultToTeam_away _ r2 (fun hh => h3 ((updateTeamStats_idField ..).symm.trans hh))
              ((updateTeamStats_idField ..).trans h4),
            applyResultToTeam_away _ r1 (fun hh => h1 ((updateTeamStats_idField ..).symm.trans hh))
              ((updateTeamStats_idField ..).trans h2),
            updateTeamStats_comm]
        · rw [applyResultToTeam_skip t r2 h3 h4,
            applyResultToTeam_skip _ r2 (fun hh => h3 ((updateTeamStats_idField ..).symm.trans hh))
              (fun hh => h4 ((updateTeamStats_idField ..).symm.trans hh)),
            applyResultToTeam_away t r1 h1 h2]
    · rw [applyResultToTeam_skip t r1 h1 h2]
      by_cases h3 : t.id = r2.homeTeamId
      · rw [applyResultToTeam_home t r2 h3,
          applyResultToTeam_skip _ r1 (fun hh => h1 ((updateTeamStats_idField ..).symm.trans hh))
            (fun hh => h2 ((updateTeamStats_idField ..).symm.trans hh))]
      · by_cases h4 : t.id = r2.awayTeamId
        · rw [applyResultToTeam_away t r2 h3 h4,
            applyResultToTeam_skip _ r1 (fun hh => h1 ((updateTeamStats_idField ..).symm.trans hh))
              (fun hh => h2 ((updateTeamStats_idField ..).symm.trans hh))]
        · rw [applyResultToTeam_skip t r2 h3 h4, applyResultToTeam_skip t r1 h1 h2]

theorem applyResultToTeam_cancel (t : Team) (r : MatchResult) (hc : Consistent t) :
    reverseResultOnTeam (applyResultToTeam t r) r = t := by
  unfold applyResultToTeam reverseResultOnTeam
  by_cases h1 : t.id = r.homeTeamId
  · rw [if_pos h1, if_pos (by rw [updateTeamStats_eq]; exact h1)]
    exact updateTeamStats_inverse t r.homeScore r.awayScore true 1 hc
  · by_cases h2 : t.id = r.awayTeamId
    · rw [if_neg h1, if_pos h2, if_neg (by rw [updateTeamStats_eq]; exact h1),
        if_pos (by rw [updateTeamStats_eq]; exact h2)]
      exact updateTeamStats_inverse t r.homeScore r.awayScore false 1 hc
    · rw [if_neg h1, if_neg h2, if_neg h1, if_neg h2]

theorem applyResultToTeam_consistent (t : Team) (r : MatchResult) (hc : Consistent t) :
    Consistent (applyResultToTeam t r) := by
  unfold applyResultToTeam
  split_ifs <;> first
    | exact updateTeamStats_consistent ..
    | exact hc

theorem applyResults_append (l1 l2 : List MatchResult) (t : Team) :
    applyResults (l1 ++ l2) t = applyResults l2 (applyResults l1 t) := by
  simp [applyResults, List.foldl_append]

theorem applyResults_perm {l1 l2 : List MatchResult} (p : List.Perm l1 l2) :
    ∀ t : Team, applyResults l1 t = applyResults l2 t := by
  induction p with
  | nil => intro t; rfl
  | cons x _ ih => intro t; simp only [applyResults, List.foldl_cons] at ih ⊢; exact ih _
  | swap x y l =>
    intro t
    simp only [applyResults, List.foldl_cons]
    rw [applyResultToTeam_comm]
  | trans _ _ ih1 ih2 => intro t; exact (ih1 t).trans (ih2 t)

theorem applyResults_consistent (rs : List MatchResult) :
    ∀ t : Team, Consistent t → Consistent (applyResults rs t) := by
  induction rs with
  | nil => intro t h; exact h
  | cons r rs ih =>
    intro t h
    simp only [applyResults, List.foldl_cons] at ih ⊢
    exact ih _ (applyResultToTeam_consistent t r h)

theorem middle_to_end_perm (r : MatchResult) (l1 l2 : List MatchResult) :
    List.Perm (l1 ++ r :: l2) ((l1 ++ l2) ++ [r]) := by
  refine List.perm_middle.trans ?_
  have h2 : List.Perm ((l1 ++ l2) ++ [r]) (r :: (l1 ++ l2)) := by
    simpa using (@List.perm_middle _ r (l1 ++ l2) [])
  exact h2.symm

theorem applyResults_insert (r : MatchResult) (l1 l2 : List MatchResult) (t : Team) :
    applyResults (l1 ++ r :: l2) t =
      applyResultToTeam (applyResults (l1 ++ l2) t) r := by
  rw [applyResults_perm (middle_to_end_perm r l1 l2) t, applyResults_append]
  rfl

theorem applyResults_remove (r : MatchResult) (l1 l2 : List MatchResult) (t : Team)
    (hc : Consistent t) :
    reverseResultOnTeam (applyResults (l1 ++ r :: l2) t) r = applyResults (l1 ++ l2) t := by
  rw [applyResults_insert]
  exact applyResultToTeam_cancel _ r (applyResults_consistent _ t hc)

theorem applyResults_replace (r0 r1 : MatchResult) (l1 l2 : List MatchResult) (t : Team)
    (hc : Consistent t) :
    applyResultToTeam (reverseResultOnTeam (applyResults (l1 ++ r0 :: l2) t) r0) r1 =
      applyResults (l1 ++ r1 :: l2) t := by
  rw [applyResults_remove r0 l1 l2 t hc, applyResults_insert]

/-! ### Standings snapshots up to sorting -/

theorem coreStats_applyResultToTeam (t : Team) (r : MatchResult) :
    coreStats (applyResultToTeam t r) = applyResultToTeam (coreStats t) r := by
  have hid : (coreStats t).id = t.id := rfl
  by_cases h1 : t.id = r.homeTeamId
  · rw [applyResultToTeam_home t r h1, applyResultToTeam_home _ r (hid.trans h1)]
    simp [updateTeamStats_eq, coreStats]
  · by_cases h2 : t.id = r.awayTeamId
    · rw [applyResultToTeam_away t r h1 h2,
        applyResultToTeam_away _ r (fun hh => h1 (hid.symm.trans hh)) (hid.trans h2)]
      simp [updateTeamStats_eq, coreStats]
    · rw [applyResultToTeam_skip t r h1 h2,
        applyResultToTeam_skip _ r (fun hh => h1 (hid.symm.trans hh))
          (fun hh => h2 (hid.symm.trans hh))]

theorem coreStats_reverseResultOnTeam (t : Team) (r : MatchResult) :
    coreStats (reverseResultOnTeam t r) = reverseResultOnTeam (coreStats t) r := by
  have hid : (coreStats t).id = t.id := rfl
  by_cases h1 : t.id = r.homeTeamId
  · rw [reverseResultOnTeam_home t r h1, reverseResultOnTeam_home _ r (hid.trans h1)]
    simp [updateTeamStats_eq, coreStats]
  · by_cases h2 : t.id = r.awayTeamId
    · rw [reverseResultOnTeam_away t r h1 h2,
        reverseResultOnTeam_away _ r (fun hh => h1 (hid.symm.trans hh)) (hid.trans h2)]
      simp [updateTeamStats_eq, coreStats]
    · rw [reverseResultOnTeam_skip t r h1 h2,
        reverseResultOnTeam_skip _ r (fun hh => h1 (hid.symm.trans hh))
          (fun hh => h2 (hid.symm.trans hh))]

theorem processMatchResult_false_map (s : List Team) (mr : MatchResult) :
    processMatchResult s mr false =
      sortStandings (s.map fun t => applyResultToTeam t mr) := rfl

theorem processMatchResult_true_map (s : List Team) (mr : MatchResult) :
    processMatchResult s mr true =
      sortStandings (s.map fun t => reverseResultOnTeam t mr) := rfl

theorem processMatchResult_core_perm_false (s : List Team) (mr : MatchResult) :
    List.Perm ((processMatchResult s mr false).map coreStats)
      ((s.map coreStats).map fun t => applyResultToTeam t mr) := by
  rw [processMatchResult_false_map]
  refine (sortStandings_core_perm _).trans ?_
  rw [List.map_map, List.map_map]
  have he : coreStats ∘ (fun t => applyResultToTeam t mr) =
      (fun t => applyResultToTeam t mr) ∘ coreStats :=
    funext fun t => coreStats_applyResultToTeam t mr
  rw [he]

theorem processMatchResult_core_perm_true (s : List Team) (mr : MatchResult) :
    List.Perm ((processMatchResult s mr true).map coreStats)
      ((s.map coreStats).map fun t => reverseResultOnTeam t mr) := by
  rw [processMatchResult_true_map]
  refine (sortStandings_core_perm _).trans ?_
  rw [List.map_map, List.map_map]
  have he : coreStats ∘ (fun t => reverseResultOnTeam t mr) =
      (fun t => reverseResultOnTeam t mr) ∘ coreStats :=
    funext fun t => coreStats_reverseResultOnTeam t mr
  rw [he]

theorem standInv_step_apply (init s : List Team) (RS RS' : List MatchResult)
    (mr : MatchResult)
    (hstand : List.Perm (s.map coreStats) ((init.map fun t => applyResults RS t).map coreStats))
    (hpt : ∀ t ∈ init, applyResultToTeam (applyResults RS t) mr = applyResults RS' t) :
    List.Perm ((processMatchResult s mr false).map coreStats)
      ((init.map fun t => applyResults RS' t).map coreStats) := by
  refine (processMatchResult_core_perm_false s mr).trans ?_
  refine (hstand.map _).trans ?_
  rw [List.map_map, List.map_map, List.map_map]
  have he : ∀ t ∈ init,
      (((fun t => applyResultToTeam t mr) ∘ coreStats) ∘ fun t => applyResults RS t) t =
        (coreStats ∘ fun t => applyResults RS' t) t := by
    intro t ht
    simp only [Function.comp]
    rw [← coreStats_applyResultToTeam, hpt t ht]
  rw [List.map_congr_left he]

theorem standInv_step_reverse (init s : List Team) (RS RS' : List MatchResult)
    (mr : MatchResult)
    (hstand : List.Perm (s.map coreStats) ((init.map fun t => applyResults RS t).map coreStats))
    (hpt : ∀ t ∈ init, reverseResultOnTeam (applyResults RS t) mr = applyResults RS' t) :
    List.Perm ((processMatchResult s mr true).map coreStats)
      ((init.map fun t => applyResults RS' t).map coreStats) := by
  refine (processMatchResult_core_perm_true s mr).trans ?_
  refine (hstand.map _).trans ?_
  rw [List.map_map, List.map_map, List.map_map]
  have he : ∀ t ∈ init,
      (((fun t => reverseResultOnTeam t mr) ∘ coreStats) ∘ fun t => applyResults RS t) t =
        (coreStats ∘ fun t => applyResults RS' t) t := by
    intro t ht
    simp only [Function.comp]
    rw [← coreStats_reverseResultOnTeam, hpt t ht]
  rw [List.map_congr_left he]

theorem completeResults_append (l1 l2 : List Match) :
    completeResults (l1 ++ l2) = completeResults l1 ++ completeResults l2 := by
  simp [completeResults]

theorem completeResults_cons_complete (m : Match) (l : List Match)
    (h : isMatchComplete m = true) :
    completeResults (m :: l) = createMatchResult m :: completeResults l := by
  simp [completeResults, List.filter_cons, h]

theorem completeResults_cons_incomplete (m : Match) (l : List Match)
    (h : isMatchComplete m = false) :
    completeResults (m :: l) = completeResults l := by
  simp [completeResults, List.filter_cons, h]

theorem completeResults_none (l : List Match)
    (h : ∀ m ∈ l, isMatchComplete m = false) : completeResults l = [] := by
  induction l with
  | nil => rfl
  | cons m rest ih =>
    rw [completeResults_cons_incomplete m rest (h m (List.mem_cons_self m rest))]
    exact ih fun x hx => h x (List.mem_cons_of_mem m hx)

/-! ### Ledger helpers and transition lemmas -/

theorem ledgerSet_self (l : Ledger) (k : Int) (v : Int × Int) : ledgerSet l k v k = some v := by
  simp [ledgerSet]

theorem ledgerSet_ne (l : Ledger) (k : Int) (v : Int × Int) (k' : Int) (h : k' ≠ k) :
    ledgerSet l k v k' = l k' := by
  simp [ledgerSet, h]

theorem ledgerDelete_self (l : Ledger) (k : Int) : ledgerDelete l k k = none := by
  simp [ledgerDelete]

theorem ledgerDelete_ne (l : Ledger) (k : Int) (k' : Int) (h : k' ≠ k) :
    ledgerDelete l k k' = l k' := by
  simp [ledgerDelete, h]

theorem nodup_middle_ids (pre post : List Match) (m0 : Match)
    (hnd : ((pre ++ m0 :: post).map Match.id).Nodup) :
    ∀ x : Match, (x ∈ pre ∨ x ∈ post) → x.id ≠ m0.id := by
  have h1 : (pre.map Match.id ++ m0.id :: post.map Match.id).Nodup := by simpa using hnd
  have h2 : (m0.id :: (pre.map Match.id ++ post.map Match.id)).Nodup :=
    List.nodup_middle.mp h1
  intro x hx hxid
  have hnot : m0.id ∉ pre.map Match.id ++ post.map Match.id := (List.nodup_cons.mp h2).1
  apply hnot
  rw [← hxid]
  rcases hx with hx | hx
  · exact List.mem_append_left _ (List.mem_map_of_mem Match.id hx)
  · exact List.mem_append_right _ (List.mem_map_of_mem Match.id hx)

theorem ids_replace_middle (pre post : List Match) (m0 m' : Match) (hid : m'.id = m0.id) :
    (pre ++ m' :: post).map Match.id = (pre ++ m0 :: post).map Match.id := by
  simp [hid]

theorem trans_apply (init s : List Team) (l : Ledger) (pre post : List Match) (m0 m' : Match)
    (hnd : ((pre ++ m0 :: post).map Match.id).Nodup)
    (hledg : LedgerInv ⟨s, pre ++ m0 :: post, l⟩)
    (hstand : StandInv init ⟨s, pre ++ m0 :: post, l⟩)
    (hm0 : isMatchComplete m0 = false)
    (hm' : isMatchComplete m' = true)
    (hid : m'.id = m0.id) :
    ((pre ++ m' :: post).map Match.id).Nodup ∧
    LedgerInv ⟨processMatchResult s (createMatchResult m') false, pre ++ m' :: post,
      ledgerSet l m0.id (scoreToInt m'.homeScore, scoreToInt m'.awayScore)⟩ ∧
    StandInv init ⟨processMatchResult s (createMatchResult m') false, pre ++ m' :: post,
      ledgerSet l m0.id (scoreToInt m'.homeScore, scoreToInt m'.awayScore)⟩ := by
  refine ⟨by rw [ids_replace_middle pre post m0 m' hid]; exact hnd, ?_, ?_⟩
  · intro x hx
    rcases List.mem_append.mp hx with hxp | hxc
    · have hne : x.id ≠ m0.id := nodup_middle_ids pre post m0 hnd x (Or.inl hxp)
      have hold := hledg x (List.mem_append_left _ hxp)
      exact ⟨fun hcomp => by dsimp only; rw [ledgerSet_ne _ _ _ _ hne]; exact hold.1 hcomp,
             fun hcomp => by dsimp only; rw [ledgerSet_ne _ _ _ _ hne]; exact hold.2 hcomp⟩
    · rcases List.mem_cons.mp hxc with rfl | hxq
      · refine ⟨fun _ => by dsimp only; rw [hid]; exact ledgerSet_self l m0.id _, fun hcomp => ?_⟩
        rw [hm'] at hcomp; cases hcomp
      · have hne : x.id ≠ m0.id := nodup_middle_ids pre post m0 hnd x (Or.inr hxq)
        have hold := hledg x (List.mem_append_right _ (List.mem_cons_of_mem m0 hxq))
        exact ⟨fun hcomp => by dsimp only; rw [ledgerSet_ne _ _ _ _ hne]; exact hold.1 hcomp,
               fun hcomp => by dsimp only; rw [ledgerSet_ne _ _ _ _ hne]; exact hold.2 hcomp⟩
  · unfold StandInv at hstand ⊢
    have hcr_old : completeResults (pre ++ m0 :: post) =
        completeResults pre ++ completeResults post := by
      rw [completeResults_append, completeResults_cons_incomplete m0 post hm0]
    have hcr_new : completeResults (pre ++ m' :: post) =
        completeResults pre ++ createMatchResult m' :: completeResults post := by
      rw [completeResults_append, completeResults_cons_complete m' post hm']
    rw [hcr_old] at hstand
    rw [hcr_new]
    exact standInv_step_apply init s _ _ _ hstand
      fun t _ => (applyResults_insert (createMatchResult m') _ _ t).symm

theorem trans_reverse (init s : List Team) (l : Ledger) (pre post : List Match) (m0 m' : Match)
    (hc : ∀ t ∈ init, Consistent t)
    (hnd : ((pre ++ m0 :: post).map Match.id).Nodup)
    (hledg : LedgerInv ⟨s, pre ++ m0 :: post, l⟩)
    (hstand : StandInv init ⟨s, pre ++ m0 :: post, l⟩)
    (hm0 : isMatchComplete m0 = true)
    (hm' : isMatchComplete m' = false)
    (hid : m'.id = m0.id) :
    ((pre ++ m' :: post).map Match.id).Nodup ∧
    LedgerInv ⟨processMatchResult s (createMatchResult m0) true, pre ++ m' :: post,
      ledgerDelete l m0.id⟩ ∧
    StandInv init ⟨processMatchResult s (createMatchResult m0) true, pre ++ m' :: post,
      ledgerDelete l m0.id⟩ := by
  refine ⟨by rw [ids_replace_middle pre post m0 m' hid]; exact hnd, ?_, ?_⟩
  · intro x hx
    rcases List.mem_append.mp hx with hxp | hxc
    · have hne : x.id ≠ m0.id := nodup_middle_ids pre post m0 hnd x (Or.inl hxp)
      have hold := hledg x (List.mem_append_left _ hxp)
      exact ⟨fun hcomp => by dsimp only; rw [ledgerDelete_ne _ _ _ hne]; exact hold.1 hcomp,
             fun hcomp => by dsimp only; rw [ledgerDelete_ne _ _ _ hne]; exact hold.2 hcomp⟩
    · rcases List.mem_cons.mp hxc with rfl | hxq
      · refine ⟨fun hcomp => ?_, fun _ => by dsimp only; rw [hid]; exact ledgerDelete_self l m0.id⟩
        rw [hm'] at hcomp; cases hcomp
      · have hne : x.id ≠ m0.id := nodup_middle_ids pre post m0 hnd x (Or.inr hxq)
        have hold := hledg x (List.mem_append_right _ (List.mem_cons_of_mem m0 hxq))
        exact ⟨fun hcomp => by dsimp only; rw [ledgerDelete_ne _ _ _ hne]; exact hold.1 hcomp,
               fun hcomp => by dsimp only; rw [ledgerDelete_ne _ _ _ hne]; exact hold.2 hcomp⟩
  · unfold StandInv at hstand ⊢
    have hcr_old : completeResults (pre ++ m0 :: post) =
        completeResults pre ++ createMatchResult m0 :: completeResults post := by
      rw [completeResults_append, completeResults_cons_complete m0 post hm0]
    have hcr_new : completeResults (pre ++ m' :: post) =
        completeResults pre ++ completeResults post := by
      rw [completeResults_append, completeResults_cons_incomplete m' post hm']
    rw [hcr_old] at hstand
    rw [hcr_new]
    exact standInv_step_reverse init s _ _ _ hstand
      fun t ht => applyResults_remove (createMatchResult m0) _ _ t (hc t ht)

theorem trans_edit (init s : List Team) (l : Ledger) (pre post : List Match) (m0 m' : Match)
    (hc : ∀ t ∈ init, Consistent t)
    (hnd : ((pre ++ m0 :: post).map Match.id).Nodup)
    (hledg : LedgerInv ⟨s, pre ++ m0 :: post, l⟩)
    (hstand : StandInv init ⟨s, pre ++ m0 :: post, l⟩)
    (hm0 : isMatchComplete m0 = true)
    (hm' : isMatchComplete m' = true)
    (hid : m'.id = m0.id) :
    ((pre ++ m' :: post).map Match.id).Nodup ∧
    LedgerInv ⟨processMatchResult (processMatchResult s (createMatchResult m0) true)
        (createMatchResult m') false, pre ++ m' :: post,
      ledgerSet l m0.id (scoreToInt m'.homeScore, scoreToInt m'.awayScore)⟩ ∧
    StandInv init ⟨processMatchResult (processMatchResult s (createMatchResult m0) true)
        (createMatchResult m') false, pre ++ m' :: post,
      ledgerSet l m0.id (scoreToInt m'.homeScore, scoreToInt m'.awayScore)⟩ := by
  refine ⟨by rw [ids_replace_middle pre post m0 m' hid]; exact hnd, ?_, ?_⟩
  · intro x hx
    rcases List.mem_append.mp hx with hxp | hxc
    · have hne : x.id ≠ m0.id := nodup_middle_ids pre post m0 hnd x (Or.inl hxp)
      have hold := hledg x (List.mem_append_left _ hxp)
      exact ⟨fun hcomp => by dsimp only; rw [ledgerSet_ne _ _ _ _ hne]; exact hold.1 hcomp,
             fun hcomp => by dsimp only; rw [ledgerSet_ne _ _ _ _ hne]; exact hold.2 hcomp⟩
    · rcases List.mem_cons.mp hxc with rfl | hxq
      · refine ⟨fun _ => by dsimp only; rw [hid]; exact ledgerSet_self l m0.id _, fun hcomp => ?_⟩
        rw [hm'] at hcomp; cases hcomp
      · have hne : x.id ≠ m0.id := nodup_middle_ids pre post m0 hnd x (Or.inr hxq)
        have hold := hledg x (List.mem_append_right _ (List.mem_cons_of_mem m0 hxq))
        exact ⟨fun hcomp => by dsimp only; rw [ledgerSet_ne _ _ _ _ hne]; exact hold.1 hcomp,
               fun hcomp => by dsimp only; rw [ledgerSet_ne _ _ _ _ hne]; exact hold.2 hcomp⟩
  · unfold StandInv at hstand ⊢
    have hcr_old : completeResults (pre ++ m0 :: post) =
        completeResults pre ++ createMatchResult m0 :: completeResults post := by
      rw [completeResults_append, completeResults_cons_complete m0 post hm0]
    have hcr_new : completeResults (pre ++ m' :: post) =
        completeResults pre ++ createMatchResult m' :: completeResults post := by
      rw [completeResults_append, completeResults_cons_complete m' post hm']
    rw [hcr_old] at hstand
    rw [hcr_new]
    have hmid := standInv_step_reverse init s _
      (completeResults pre ++ completeResults post) (createMatchResult m0) hstand
      fun t ht => applyResults_remove (createMatchResult m0) _ _ t (hc t ht)
    exact standInv_step_apply init _ _ _ _ hmid
      fun t _ => (applyResults_insert (createMatchResult m') _ _ t).symm

theorem trans_noop (init s : List Team) (l : Ledger) (pre post : List Match) (m0 m' : Match)
    (hnd : ((pre ++ m0 :: post).map Match.id).Nodup)
    (hledg : LedgerInv ⟨s, pre ++ m0 :: post, l⟩)
    (hstand : StandInv init ⟨s, pre ++ m0 :: post, l⟩)
    (hm0 : isMatchComplete m0 = false)
    (hm' : isMatchComplete m' = false)
    (hid : m'.id = m0.id) :
    ((pre ++ m' :: post).map Match.id).Nodup ∧
    LedgerInv ⟨s, pre ++ m' :: post, l⟩ ∧
    StandInv init ⟨s, pre ++ m' :: post, l⟩ := by
  refine ⟨by rw [ids_replace_middle pre post m0 m' hid]; exact hnd, ?_, ?_⟩
  · intro x hx
    rcases List.mem_append.mp hx with hxp | hxc
    · exact hledg x (List.mem_append_left _ hxp)
    · rcases List.mem_cons.mp hxc with rfl | hxq
      · have hnone := (hledg m0 (List.mem_append_right _ (List.mem_cons_self m0 post))).2 hm0
        refine ⟨fun hcomp => ?_, fun _ => by dsimp only; rw [hid]; exact hnone⟩
        rw [hm'] at hcomp; cases hcomp
      · exact hledg x (List.mem_append_right _ (List.mem_cons_of_mem m0 hxq))
  · unfold StandInv at hstand ⊢
    have hcr_old : completeResults (pre ++ m0 :: post) =
        completeResults pre ++ completeResults post := by
      rw [completeResults_append, completeResults_cons_incomplete m0 post hm0]
    have hcr_new : completeResults (pre ++ m' :: post) =
        completeResults pre ++ completeResults post := by
      rw [completeResults_append, completeResults_cons_incomplete m' post hm']
    rw [hcr_old] at hstand
    rw [hcr_new]
    exact hstand

/-! ### Structure of `updateMatchScore` -/

theorem setMatchField_id (m : Match) (field : String) (value : Score) :
    (setMatchField m field value).id = m.id := by
  unfold setMatchField; split_ifs <;> rfl

theorem setMatchField_homeTeamId (m : Match) (field : String) (value : Score) :
    (setMatchField m field value).homeTeamId = m.homeTeamId := by
  unfold setMatchField; split_ifs <;> rfl

theorem setMatchField_awayTeamId (m : Match) (field : String) (value : Score) :
    (setMatchField m field value).awayTeamId = m.awayTeamId := by
  unfold setMatchField; split_ifs <;> rfl

theorem isMatchComplete_false_iff (m : Match) :
    isMatchComplete m = false ↔ (m.homeScore = Score.unset ∨ m.awayScore = Score.unset) := by
  simp only [isMatchComplete, Bool.and_eq_false_iff, decide_eq_false_iff_not, not_not, ne_eq]

theorem isMatchComplete_true_iff (m : Match) :
    isMatchComplete m = true ↔ (¬m.homeScore = Score.unset ∧ ¬m.awayScore = Score.unset) := by
  simp [isMatchComplete]

theorem find?_first (matchId : Int) :
    ∀ (pre : List Match) (m0 : Match) (post : List Match),
      (∀ x ∈ pre, ¬(x.id = matchId)) → m0.id = matchId →
      (pre ++ m0 :: post).find? (fun m => m.id = matchId) = some m0 := by
  intro pre
  induction pre with
  | nil =>
    intro m0 post _ hm0
    simp [List.find?_cons, hm0]
  | cons x rest ih =>
    intro m0 post hpre hm0
    have hx : ¬(x.id = matchId) := hpre x (List.mem_cons_self x rest)
    simp only [List.cons_append]
    rw [List.find?_cons_of_neg _ (by simpa using hx)]
    exact ih m0 post (fun y hy => hpre y (List.mem_cons_of_mem x hy)) hm0

theorem replaceFirst_append (matchId : Int) (m' : Match) :
    ∀ (pre : List Match) (m0 : Match) (post : List Match),
      (∀ x ∈ pre, ¬(x.id = matchId)) → m0.id = matchId →
      replaceFirstMatch (pre ++ m0 :: post) matchId m' = pre ++ m' :: post := by
  intro pre
  induction pre with
  | nil =>
    intro m0 post _ hm0
    simp [replaceFirstMatch, hm0]
  | cons x rest ih =>
    intro m0 post hpre hm0
    have hx : ¬(x.id = matchId) := hpre x (List.mem_cons_self x rest)
    simp only [List.cons_append, replaceFirstMatch, if_neg hx, List.append_eq]
    rw [ih m0 post (fun y hy => hpre y (List.mem_cons_of_mem x hy)) hm0]

theorem find?_some_split {p : Match → Bool} :
    ∀ {l : List Match} {a : Match}, l.find? p = some a →
      ∃ pre post, l = pre ++ a :: post ∧ ∀ x ∈ pre, ¬(p x = true) := by
  intro l
  induction l with
  | nil => intro a h; simp [List.find?] at h
  | cons x rest ih =>
    intro a h
    by_cases hx : p x = true
    · rw [List.find?_cons_of_pos _ hx] at h
      obtain rfl : x = a := by injection h
      exact ⟨[], rest, rfl, by simp⟩
    · rw [List.find?_cons_of_neg _ hx] at h
      obtain ⟨pre, post, he, hp⟩ := ih h
      refine ⟨x :: pre, post, by rw [he]; rfl, ?_⟩
      intro y hy
      rcases List.mem_cons.mp hy with rfl | hy'
      · exact hx
      · exact hp y hy'

theorem updateMatchScore_not_found (st : SimState) (matchId : Int) (field : String)
    (value : Score) (h : st.roundMatches.find? (fun m => m.id = matchId) = none) :
    updateMatchScore st matchId field value = st := by
  unfold updateMatchScore
  rw [h]

theorem updateMatchScore_desc_incomplete_none (s : List Team) (l : Ledger)
    (pre post : List Match) (m0 : Match) (matchId : Int) (field : String) (value : Score)
    (hpre : ∀ x ∈ pre, ¬(x.id = matchId)) (hm0 : m0.id = matchId)
    (hunset : (setMatchField m0 field value).homeScore = Score.unset ∨
      (setMatchField m0 field value).awayScore = Score.unset)
    (hl : l m0.id = none) :
    updateMatchScore ⟨s, pre ++ m0 :: post, l⟩ matchId field value =
      ⟨s, pre ++ setMatchField m0 field value :: post, l⟩ := by
  unfold updateMatchScore
  rw [show (⟨s, pre ++ m0 :: post, l⟩ : SimState).roundMatches = pre ++ m0 :: post from rfl,
    find?_first matchId pre m0 post hpre hm0]
  dsimp only
  rw [replaceFirst_append matchId _ pre m0 post hpre hm0, if_pos hunset,
    setMatchField_id, hl]

theorem updateMatchScore_desc_incomplete_some (s : List Team) (l : Ledger)
    (pre post : List Match) (m0 : Match) (matchId : Int) (field : String) (value : Score)
    (prev : Int × Int)
    (hpre : ∀ x ∈ pre, ¬(x.id = matchId)) (hm0 : m0.id = matchId)
    (hunset : (setMatchField m0 field value).homeScore = Score.unset ∨
      (setMatchField m0 field value).awayScore = Score.unset)
    (hl : l m0.id = some prev) :
    updateMatchScore ⟨s, pre ++ m0 :: post, l⟩ matchId field value =
      ⟨reverseMatchResultByValues s (setMatchField m0 field value) prev.1 prev.2,
        pre ++ setMatchField m0 field value :: post,
        ledgerDelete l m0.id⟩ := by
  unfold updateMatchScore
  rw [show (⟨s, pre ++ m0 :: post, l⟩ : SimState).roundMatches = pre ++ m0 :: post from rfl,
    find?_first matchId pre m0 post hpre hm0]
  dsimp only
  rw [replaceFirst_append matchId _ pre m0 post hpre hm0, if_pos hunset,
    setMatchField_id, hl]

theorem updateMatchScore_desc_complete_none (s : List Team) (l : Ledger)
    (pre post : List Match) (m0 : Match) (matchId : Int) (field : String) (value : Score)
    (hpre : ∀ x ∈ pre, ¬(x.id = matchId)) (hm0 : m0.id = matchId)
    (hset : ¬((setMatchField m0 field value).homeScore = Score.unset ∨
      (setMatchField m0 field value).awayScore = Score.unset))
    (hl : l m0.id = none) :
    updateMatchScore ⟨s, pre ++ m0 :: post, l⟩ matchId field value =
      ⟨processMatchResult s (createMatchResult (setMatchField m0 field value)) false,
        pre ++ setMatchField m0 field value :: post,
        ledgerSet l m0.id (scoreToInt (setMatchField m0 field value).homeScore,
          scoreToInt (setMatchField m0 field value).awayScore)⟩ := by
  unfold updateMatchScore
  rw [show (⟨s, pre ++ m0 :: post, l⟩ : SimState).roundMatches = pre ++ m0 :: post from rfl,
    find?_first matchId pre m0 post hpre hm0]
  dsimp only
  rw [replaceFirst_append matchId _ pre m0 post hpre hm0, if_neg hset,
    if_pos ((isMatchComplete_true_iff _).mpr (not_or.mp hset)),
    setMatchField_id, hl]
  rfl

theorem updateMatchScore_desc_complete_some (s : List Team) (l : Ledger)
    (pre post : List Match) (m0 : Match) (matchId : Int) (field : String) (value : Score)
    (prev : Int × Int)
    (hpre : ∀ x ∈ pre, ¬(x.id = matchId)) (hm0 : m0.id = matchId)
    (hset : ¬((setMatchField m0 field value).homeScore = Score.unset ∨
      (setMatchField m0 field value).awayScore = Score.unset))
    (hl : l m0.id = some prev) :
    updateMatchScore ⟨s, pre ++ m0 :: post, l⟩ matchId field value =
      ⟨processMatchResult
          (reverseMatchResultByValues s (setMatchField m0 field value) prev.1 prev.2)
          (createMatchResult (setMatchField m0 field value)) false,
        pre ++ setMatchField m0 field value :: post,
        ledgerSet l m0.id (scoreToInt (setMatchField m0 field value).homeScore,
          scoreToInt (setMatchField m0 field value).awayScore)⟩ := by
  unfold updateMatchScore
  rw [show (⟨s, pre ++ m0 :: post, l⟩ : SimState).roundMatches = pre ++ m0 :: post from rfl,
    find?_first matchId pre m0 post hpre hm0]
  dsimp only
  rw [replaceFirst_append matchId _ pre m0 post hpre hm0, if_neg hset,
    if_pos ((isMatchComplete_true_iff _).mpr (not_or.mp hset)),
    setMatchField_id, hl]
  rfl

theorem reverse_by_ledger_eq (s : List Team) (m0 : Match) (field : String) (value : Score)
    (prev : Int × Int)
    (hprev : prev = (scoreToInt m0.homeScore, scoreToInt m0.awayScore)) :
    reverseMatchResultByValues s (setMatchField m0 field value) prev.1 prev.2 =
      processMatchResult s (createMatchResult m0) true := by
  unfold reverseMatchResultByValues
  congr 1
  rw [hprev]
  simp [createMatchResult, setMatchField_id, setMatchField_homeTeamId, setMatchField_awayTeamId]

theorem inv_update (init : List Team) (st : SimState) (matchId : Int) (field : String)
    (value : Score)
    (hc : ∀ t ∈ init, Consistent t)
    (hnd : (st.roundMatches.map Match.id).Nodup)
    (hledg : LedgerInv st) (hstand : StandInv init st) :
    ((updateMatchScore st matchId field value).roundMatches.map Match.id).Nodup ∧
    LedgerInv (updateMatchScore st matchId field value) ∧
    StandInv init (updateMatchScore st matchId field value) := by
  obtain ⟨s, ms, l⟩ := st
  cases hf : ms.find? (fun m => m.id = matchId) with
  | none =>
    rw [updateMatchScore_not_found _ _ _ _ hf]
    exact ⟨hnd, hledg, hstand⟩
  | some m0 =>
    obtain ⟨pre, post, hsplit, hpre'⟩ := find?_some_split hf
    have hpre : ∀ x ∈ pre, ¬(x.id = matchId) := fun x hx => by
      have := hpre' x hx; simpa using this
    have hm0 : m0.id = matchId := by
      have := List.find?_some hf; simpa using this
    have hmem0 : m0 ∈ ms := by
      rw [hsplit]; exact List.mem_append_right _ (List.mem_cons_self m0 post)
    subst hsplit
    have hid' : (setMatchField m0 field value).id = m0.id := setMatchField_id m0 field value
    by_cases huns : (setMatchField m0 field value).homeScore = Score.unset ∨
        (setMatchField m0 field value).awayScore = Score.unset
    · have hm' : isMatchComplete (setMatchField m0 field value) = false :=
        (isMatchComplete_false_iff _).mpr huns
      cases hl : l m0.id with
      | none =>
        have hm0inc : isMatchComplete m0 = false := by
          cases hcm : isMatchComplete m0 with
          | false => rfl
          | true =>
            have := (hledg m0 hmem0).1 hcm
            dsimp only at this; rw [hl] at this; cases this
        rw [updateMatchScore_desc_incomplete_none s l pre post m0 matchId field value
          hpre hm0 huns hl]
        exact trans_noop init s l pre post m0 _ hnd hledg hstand hm0inc hm' hid'
      | some prev =>
        have hm0c : isMatchComplete m0 = true := by
          cases hcm : isMatchComplete m0 with
          | true => rfl
          | false =>
            have := (hledg m0 hmem0).2 hcm
            dsimp only at this; rw [hl] at this; cases this
        have hprev : prev = (scoreToInt m0.homeScore, scoreToInt m0.awayScore) := by
          have h2 := (hledg m0 hmem0).1 hm0c
          dsimp only at h2
          rw [hl] at h2
          exact Option.some_inj.mp h2
        rw [updateMatchScore_desc_incomplete_some s l pre post m0 matchId field value
          prev hpre hm0 huns hl,
          reverse_by_ledger_eq s m0 field value prev hprev]
        exact trans_reverse init s l pre post m0 _ hc hnd hledg hstand hm0c hm' hid'
    · have hm' : isMatchComplete (setMatchField m0 field value) = true :=
        (isMatchComplete_true_iff _).mpr (not_or.mp huns)
      cases hl : l m0.id with
      | none =>
        have hm0inc : isMatchComplete m0 = false := by
          cases hcm : isMatchComplete m0 with
          | false => rfl
          | true =>
            have := (hledg m0 hmem0).1 hcm
            dsimp only at this; rw [hl] at this; cases this
        rw [updateMatchScore_desc_complete_none s l pre post m0 matchId field value
          hpre hm0 huns hl]
        exact trans_apply init s l pre post m0 _ hnd hledg hstand hm0inc hm' hid'
      | some prev =>
        have hm0c : isMatchComplete m0 = true := by
          cases hcm : isMatchComplete m0 with
          | true => rfl
          | false =>
            have := (hledg m0 hmem0).2 hcm
            dsimp only at this; rw [hl] at this; cases this
        have hprev : prev = (scoreToInt m0.homeScore, scoreToInt m0.awayScore) := by
          have h2 := (hledg m0 hmem0).1 hm0c
          dsimp only at h2
          rw [hl] at h2
          exact Option.some_inj.mp h2
        rw [updateMatchScore_desc_complete_some s l pre post m0 matchId field value
          prev hpre hm0 huns hl,
          reverse_by_ledger_eq s m0 field value prev hprev]
        exact trans_edit init s l pre post m0 _ hc hnd hledg hstand hm0c hm' hid'

theorem clearAux_inv (init : List Team) (hc : ∀ t ∈ init, Consistent t) :
    ∀ (rest pre : List Match) (s : List Team) (l : Ledger),
      ((pre ++ rest).map Match.id).Nodup →
      LedgerInv ⟨s, pre ++ rest, l⟩ → StandInv init ⟨s, pre ++ rest, l⟩ →
      ((pre ++ (clearAux s l rest).1).map Match.id).Nodup ∧
      LedgerInv ⟨(clearAux s l rest).2.1, pre ++ (clearAux s l rest).1,
        (clearAux s l rest).2.2⟩ ∧
      StandInv init ⟨(clearAux s l rest).2.1, pre ++ (clearAux s l rest).1,
        (clearAux s l rest).2.2⟩ := by
  intro rest
  induction rest with
  | nil =>
    intro pre s l hnd hledg hstand
    exact ⟨hnd, hledg, hstand⟩
  | cons m rest ih =>
    intro pre s l hnd hledg hstand
    have hmem : m ∈ pre ++ m :: rest :=
      List.mem_append_right _ (List.mem_cons_self m rest)
    have hsplit : pre ++ m :: rest = (pre ++ [m]) ++ rest := by simp
    cases hl : l m.id with
    | none =>
      have hres := ih (pre ++ [m]) s l (by rw [← hsplit]; exact hnd)
        (by rw [← hsplit]; exact hledg) (by rw [← hsplit]; exact hstand)
      simp only [clearAux, hl]
      constructor
      · have := hres.1
        simpa using this
      · constructor
        · have := hres.2.1
          intro x hx
          exact this x (by simpa using hx)
        · have := hres.2.2
          unfold StandInv at this ⊢
          simpa using this
    | some prev =>
      have hm0c : isMatchComplete m = true := by
        cases hcm : isMatchComplete m with
        | true => rfl
        | false =>
          have := (hledg m hmem).2 hcm
          dsimp only at this; rw [hl] at this; cases this
      have hprev : prev = (scoreToInt m.homeScore, scoreToInt m.awayScore) := by
        have h2 := (hledg m hmem).1 hm0c
        dsimp only at h2
        rw [hl] at h2
        exact Option.some_inj.mp h2
      have hm1 : isMatchComplete
          ({ m with homeScore := Score.unset, awayScore := Score.unset } : Match) = false := by
        simp [isMatchComplete]
      have hstep := trans_reverse init s l pre rest m
        { m with homeScore := Score.unset, awayScore := Score.unset }
        hc hnd hledg hstand hm0c hm1 rfl
      have hrev : reverseMatchResultByValues s m prev.1 prev.2 =
          processMatchResult s (createMatchResult m) true := by
        unfold reverseMatchResultByValues
        rw [hprev]
        rfl
      have hsplit1 : pre ++ ({ m with homeScore := Score.unset, awayScore := Score.unset } : Match) :: rest =
          (pre ++ [{ m with homeScore := Score.unset, awayScore := Score.unset }]) ++ rest := by
        simp
      have hres := ih
        (pre ++ [{ m with homeScore := Score.unset, awayScore := Score.unset }])
        (processMatchResult s (createMatchResult m) true) (ledgerDelete l m.id)
        (by rw [← hsplit1]; exact hstep.1)
        (by rw [← hsplit1]; exact hstep.2.1)
        (by rw [← hsplit1]; exact hstep.2.2)
      simp only [clearAux, hl, hrev]
      constructor
      · have := hres.1
        simpa using this
      · constructor
        · have := hres.2.1
          intro x hx
          exact this x (by simpa using hx)
        · have := hres.2.2
          unfold StandInv at this ⊢
          simpa using this

theorem simAux_inv (init : List Team) (sim : Nat → Int × Int) :
    ∀ (rest pre : List Match) (s : List Team) (l : Ledger) (k : Nat),
      ((pre ++ rest).map Match.id).Nodup →
      LedgerInv ⟨s, pre ++ rest, l⟩ → StandInv init ⟨s, pre ++ rest, l⟩ →
      ((pre ++ (simAux sim s l k rest).1).map Match.id).Nodup ∧
      LedgerInv ⟨(simAux sim s l k rest).2.1, pre ++ (simAux sim s l k rest).1,
        (simAux sim s l k rest).2.2⟩ ∧
      StandInv init ⟨(simAux sim s l k rest).2.1, pre ++ (simAux sim s l k rest).1,
        (simAux sim s l k rest).2.2⟩ := by
  intro rest
  induction rest with
  | nil =>
    intro pre s l k hnd hledg hstand
    exact ⟨hnd, hledg, hstand⟩
  | cons m rest ih =>
    intro pre s l k hnd hledg hstand
    have hmem : m ∈ pre ++ m :: rest :=
      List.mem_append_right _ (List.mem_cons_self m rest)
    have hsplit : pre ++ m :: rest = (pre ++ [m]) ++ rest := by simp
    cases hcm : isMatchComplete m with
    | true =>
      have hres := ih (pre ++ [m]) s l k (by rw [← hsplit]; exact hnd)
        (by rw [← hsplit]; exact hledg) (by rw [← hsplit]; exact hstand)
      simp only [simAux, hcm, if_true]
      constructor
      · have := hres.1
        simpa using this
      · constructor
        · have := hres.2.1
          intro x hx
          exact this x (by simpa using hx)
        · have := hres.2.2
          unfold StandInv at this ⊢
          simpa using this
    | false =>
      have hlnone : l m.id = none := (hledg m hmem).2 hcm
      have hm1 : isMatchComplete ({ m with homeScore := Score.val (sim k).1, awayScore := Score.val (sim k).2 } : Match) = true := by
        simp [isMatchComplete]
      have hstep := trans_apply init s l pre rest m
        { m with homeScore := Score.val (sim k).1, awayScore := Score.val (sim k).2 }
        hnd hledg hstand hcm hm1 rfl
      have hsplit1 : pre ++ ({ m with homeScore := Score.val (sim k).1, awayScore := Score.val (sim k).2 } : Match) :: rest =
          (pre ++ [({ m with homeScore := Score.val (sim k).1, awayScore := Score.val (sim k).2 } : Match)]) ++ rest := by
        simp
      have hres := ih
        (pre ++ [({ m with homeScore := Score.val (sim k).1, awayScore := Score.val (sim k).2 } : Match)])
        (processMatchResult s (createMatchResult { m with homeScore := Score.val (sim k).1, awayScore := Score.val (sim k).2 }) false)
        (ledgerSet l m.id ((sim k).1, (sim k).2)) (k + 1)
        (by rw [← hsplit1]; exact hstep.1)
        (by rw [← hsplit1]; exact hstep.2.1)
        (by rw [← hsplit1]; exact hstep.2.2)
      simp only [simAux, hcm, if_false, Bool.false_eq_true, hlnone]
      constructor
      · have := hres.1
        simpa [applyMatchResult] using this
      · constructor
        · have := hres.2.1
          intro x hx
          refine (?_ : _ ∧ _)
          have hx' := this x (by simpa [applyMatchResult] using hx)
          exact hx'
        · have := hres.2.2
          unfold StandInv at this ⊢
          simpa [applyMatchResult] using this

theorem inv_step (init : List Team) (st : SimState) (op : LedgerOp)
    (hc : ∀ t ∈ init, Consistent t)
    (hnd : (st.roundMatches.map Match.id).Nodup)
    (hledg : LedgerInv st) (hstand : StandInv init st) :
    ((stepOp st op).roundMatches.map Match.id).Nodup ∧
    LedgerInv (stepOp st op) ∧ StandInv init (stepOp st op) := by
  cases op with
  | update matchId field value => exact inv_update init st matchId field value hc hnd hledg hstand
  | clear =>
    obtain ⟨s, ms, l⟩ := st
    exact clearAux_inv init hc ms [] s l hnd hledg hstand
  | simulate sim =>
    obtain ⟨s, ms, l⟩ := st
    by_cases hemp : ms.isEmpty
    · have heq : stepOp ⟨s, ms, l⟩ (LedgerOp.simulate sim) = ⟨s, ms, l⟩ := by
        show simulateRound sim ⟨s, ms, l⟩ = ⟨s, ms, l⟩
        unfold simulateRound
        rw [if_pos hemp]
      rw [heq]
      exact ⟨hnd, hledg, hstand⟩
    · have heq : stepOp ⟨s, ms, l⟩ (LedgerOp.simulate sim) =
          ⟨(simAux sim s l 0 ms).2.1, (simAux sim s l 0 ms).1, (simAux sim s l 0 ms).2.2⟩ := by
        show simulateRound sim ⟨s, ms, l⟩ = _
        unfold simulateRound
        rw [if_neg hemp]
      rw [heq]
      exact simAux_inv init sim ms [] s l 0 hnd hledg hstand

theorem inv_runOps (init : List Team) (hc : ∀ t ∈ init, Consistent t) :
    ∀ (ops : List LedgerOp) (st : SimState),
      (st.roundMatches.map Match.id).Nodup →
      LedgerInv st → StandInv init st →
      ((runOps st ops).roundMatches.map Match.id).Nodup ∧
      LedgerInv (runOps st ops) ∧ StandInv init (runOps st ops) := by
  intro ops
  induction ops with
  | nil => intro st hnd hledg hstand; exact ⟨hnd, hledg, hstand⟩
  | cons op ops ih =>
    intro st hnd hledg hstand
    have hstep := inv_step init st op hc hnd hledg hstand
    exact ih (stepOp st op) hstep.1 hstep.2.1 hstep.2.2

/-- Claim C1: starting from the initially loaded standings, an empty ledger
and the round's match list (all scores unset), after any sequence of
`simulateRound`, `clearRound` and `updateMatchScore` operations, a match has
a ledger entry exactly when it is complete, the entry holds the integer
values of its current scores, and — up to ordering and the transient
`position` field — the standings equal the initial standings with the result
of every currently complete match applied exactly once (so no match's effect
is counted zero or two times). -/
theorem c1_reconciliation (init : List Team) (ms : List Match) (ops : List LedgerOp)
    (hc : ∀ t ∈ init, Consistent t)
    (hnd : (ms.map Match.id).Nodup)
    (hunset : ∀ m ∈ ms, m.homeScore = Score.unset ∧ m.awayScore = Score.unset) :
    LedgerInv (runOps ⟨init, ms, fun _ => none⟩ ops) ∧
    StandInv init (runOps ⟨init, ms, fun _ => none⟩ ops) := by
  have h0ledg : LedgerInv ⟨init, ms, fun _ => none⟩ := by
    intro m hm
    have hun := hunset m hm
    constructor
    · intro hcomp
      rw [isMatchComplete_true_iff] at hcomp
      exact absurd hun.1 hcomp.1
    · intro _; rfl
  have h0stand : StandInv init ⟨init, ms, fun _ => none⟩ := by
    unfold StandInv
    rw [completeResults_none ms
      (fun m hm => (isMatchComplete_false_iff m).mpr (Or.inl (hunset m hm).1))]
    simp [applyResults]
  have h := inv_runOps init hc ops ⟨init, ms, fun _ => none⟩ hnd h0ledg h0stand
  exact ⟨h.2.1, h.2.2⟩

/-- Witness for C1 at a concrete one-team, one-match state and a single
score edit. -/
theorem c1_reconciliation_witness :
    (∀ t ∈ [defaultTeam], Consistent t) ∧
    LedgerInv (runOps ⟨[defaultTeam], [⟨1, 0, 5, Score.unset, Score.unset⟩], fun _ => none⟩
      [LedgerOp.update 1 "homeScore" (Score.val 2)]) ∧
    StandInv [defaultTeam]
      (runOps ⟨[defaultTeam], [⟨1, 0, 5, Score.unset, Score.unset⟩], fun _ => none⟩
        [LedgerOp.update 1 "homeScore" (Score.val 2)]) :=
  ⟨fun t ht => by rcases List.mem_singleton.mp ht with rfl; rfl,
   (c1_reconciliation [defaultTeam] [⟨1, 0, 5, Score.unset, Score.unset⟩]
      [LedgerOp.update 1 "homeScore" (Score.val 2)]
      (fun t ht => by rcases List.mem_singleton.mp ht with rfl; rfl)
      (by decide) (by decide)).1,
   (c1_reconciliation [defaultTeam] [⟨1, 0, 5, Score.unset, Score.unset⟩]
      [LedgerOp.update 1 "homeScore" (Score.val 2)]
      (fun t ht => by rcases List.mem_singleton.mp ht with rfl; rfl)
      (by decide) (by decide)).2⟩

/-! ### Idempotent clear (C7) and unknown-match no-op (C10) -/

theorem clearAux_ledger_mono :
    ∀ (ms : List Match) (s : List Team) (l : Ledger) (k : Int),
      (clearAux s l ms).2.2 k = none ∨ (clearAux s l ms).2.2 k = l k := by
  intro ms
  induction ms with
  | nil => intro s l k; right; rfl
  | cons m rest ih =>
    intro s l k
    cases hl : l m.id with
    | none =>
      simp only [clearAux, hl]
      exact ih s l k
    | some prev =>
      simp only [clearAux, hl]
      rcases ih (reverseMatchResultByValues s m prev.1 prev.2) (ledgerDelete l m.id) k with
        h | h
      · exact Or.inl h
      · by_cases hk : k = m.id
        · subst hk
          rw [h, ledgerDelete_self]
          exact Or.inl rfl
        · rw [h, ledgerDelete_ne _ _ _ hk]
          exact Or.inr rfl

theorem clearAux_result_none :
    ∀ (ms : List Match) (s : List Team) (l : Ledger),
      ∀ x ∈ (clearAux s l ms).1, (clearAux s l ms).2.2 x.id = none := by
  intro ms
  induction ms with
  | nil => intro s l x hx; simp [clearAux] at hx
  | cons m rest ih =>
    intro s l x hx
    cases hl : l m.id with
    | none =>
      simp only [clearAux, hl] at hx ⊢
      rcases List.mem_cons.mp hx with rfl | hx'
      · rcases clearAux_ledger_mono rest s l x.id with h | h
        · exact h
        · rw [h]; exact hl
      · exact ih s l x hx'
    | some prev =>
      simp only [clearAux, hl] at hx ⊢
      rcases List.mem_cons.mp hx with rfl | hx'
      · rcases clearAux_ledger_mono rest (reverseMatchResultByValues s m prev.1 prev.2)
          (ledgerDelete l m.id) _ with h | h
        · exact h
        · rw [h]
          exact ledgerDelete_self l m.id
      · exact ih (reverseMatchResultByValues s m prev.1 prev.2) (ledgerDelete l m.id) x hx'

theorem clearAux_noop :
    ∀ (ms : List Match) (s : List Team) (l : Ledger),
      (∀ m ∈ ms, l m.id = none) → clearAux s l ms = (ms, s, l) := by
  intro ms
  induction ms with
  | nil => intro s l _; rfl
  | cons m rest ih =>
    intro s l h
    have hl : l m.id = none := h m (List.mem_cons_self m rest)
    simp only [clearAux, hl]
    rw [ih s l fun x hx => h x (List.mem_cons_of_mem m hx)]

/-- Claim C7: `clearRound` is idempotent — a second call leaves the standings
(and in fact the whole state) unchanged, because after the first call no
match of the round has a ledger entry and reversing without an entry is a
no-op. -/
theorem c7_clearRound_idempotent (st : SimState) :
    (clearRound (clearRound st)).standings = (clearRound st).standings ∧
    ∀ m ∈ (clearRound st).roundMatches, (clearRound st).simulatedMatches m.id = none := by
  obtain ⟨s, ms, l⟩ := st
  have hnone : ∀ m ∈ (clearAux s l ms).1, (clearAux s l ms).2.2 m.id = none :=
    clearAux_result_none ms s l
  have hnoop := clearAux_noop (clearAux s l ms).1 (clearAux s l ms).2.1
    (clearAux s l ms).2.2 hnone
  constructor
  · have h2 : clearRound (clearRound ⟨s, ms, l⟩) = clearRound ⟨s, ms, l⟩ := by
      show clearRound ⟨(clearAux s l ms).2.1, (clearAux s l ms).1, (clearAux s l ms).2.2⟩ = _
      unfold clearRound
      dsimp only
      rw [hnoop]
    rw [h2]
  · exact hnone

/-- Claim C10: `updateMatchScore` with a match id matching no match of the
current round returns with the entire state unchanged — no match scores, no
ledger entry and no standings are modified. -/
theorem c10_unknown_match_noop (st : SimState) (matchId : Int) (field : String)
    (value : Score) (h : ∀ m ∈ st.roundMatches, m.id ≠ matchId) :
    updateMatchScore st matchId field value = st := by
  apply updateMatchScore_not_found
  rw [List.find?_eq_none]
  intro m hm
  simpa using h m hm

/-- Witness for C10 at a concrete state and an id absent from the round. -/
theorem c10_unknown_match_noop_witness :
    (∀ m ∈ ([⟨1, 0, 5, Score.unset, Score.unset⟩] : List Match), m.id ≠ (9 : Int)) ∧
    updateMatchScore ⟨[defaultTeam], [⟨1, 0, 5, Score.unset, Score.unset⟩], fun _ => none⟩
        9 "homeScore" (Score.val 3) =
      ⟨[defaultTeam], [⟨1, 0, 5, Score.unset, Score.unset⟩], fun _ => none⟩ :=
  ⟨by decide,
   c10_unknown_match_noop ⟨[defaultTeam], [⟨1, 0, 5, Score.unset, Score.unset⟩], fun _ => none⟩
     9 "homeScore" (Score.val 3) (by decide)⟩

/-! ### Edit overwrite (C5) -/

theorem setMatchField_home (m : Match) (v : Score) :
    setMatchField m "homeScore" v = { m with homeScore := v } := by
  unfold setMatchField
  rw [if_pos rfl, if_neg (by decide)]

theorem setMatchField_away (m : Match) (v : Score) :
    setMatchField m "awayScore" v = { m with awayScore := v } := by
  unfold setMatchField
  rw [if_neg (show ¬("awayScore" : String) = "homeScore" from by decide), if_pos rfl]

/-- Claim C5: on a fresh match of the round, entering the result 2-1 through
`updateMatchScore` (one field at a time) and then editing it to 0-0 leaves
the standings — up to ordering and positions — exactly equal to a single
direct application of 0-0 to the original standings, never a blend of both
results. -/
theorem c5_edit_overwrite (s0 : List Team) (pre post : List Match) (m : Match)
    (hc : ∀ t ∈ s0, Consistent t)
    (hpre : ∀ x ∈ pre, ¬(x.id = m.id))
    (ha : m.awayScore = Score.unset) :
    List.Perm
      ((runOps ⟨s0, pre ++ m :: post, fun _ => none⟩
          [LedgerOp.update m.id "homeScore" (Score.val 2),
           LedgerOp.update m.id "awayScore" (Score.val 1),
           LedgerOp.update m.id "homeScore" (Score.val 0),
           LedgerOp.update m.id "awayScore" (Score.val 0)]).standings.map coreStats)
      ((processMatchResult s0
          { matchId := m.id, homeTeamId := m.homeTeamId, awayTeamId := m.awayTeamId,
            homeScore := 0, awayScore := 0 } false).map coreStats) := by
  have hu1 : (setMatchField m "homeScore" (Score.val 2)).homeScore = Score.unset ∨
      (setMatchField m "homeScore" (Score.val 2)).awayScore = Score.unset := by
    rw [setMatchField_home]
    exact Or.inr ha
  have hm1 : setMatchField m "homeScore" (Score.val 2) =
      (⟨m.id, m.homeTeamId, m.awayTeamId, Score.val 2, Score.unset⟩ : Match) := by
    rw [setMatchField_home, ha]
  have hm2 : setMatchField (⟨m.id, m.homeTeamId, m.awayTeamId, Score.val 2, Score.unset⟩ : Match)
      "awayScore" (Score.val 1) =
      (⟨m.id, m.homeTeamId, m.awayTeamId, Score.val 2, Score.val 1⟩ : Match) := by
    rw [setMatchField_away]
  have hset2 : ¬((setMatchField (⟨m.id, m.homeTeamId, m.awayTeamId, Score.val 2, Score.unset⟩ : Match)
      "awayScore" (Score.val 1)).homeScore = Score.unset ∨
      (setMatchField (⟨m.id, m.homeTeamId, m.awayTeamId, Score.val 2, Score.unset⟩ : Match)
        "awayScore" (Score.val 1)).awayScore = Score.unset) := by
    rw [hm2]
    simp
  have hm3 : setMatchField (⟨m.id, m.homeTeamId, m.awayTeamId, Score.val 2, Score.val 1⟩ : Match)
      "homeScore" (Score.val 0) =
      (⟨m.id, m.homeTeamId, m.awayTeamId, Score.val 0, Score.val 1⟩ : Match) := by
    rw [setMatchField_home]
  have hset3 : ¬((setMatchField (⟨m.id, m.homeTeamId, m.awayTeamId, Score.val 2, Score.val 1⟩ : Match)
      "homeScore" (Score.val 0)).homeScore = Score.unset ∨
      (setMatchField (⟨m.id, m.homeTeamId, m.awayTeamId, Score.val 2, Score.val 1⟩ : Match)
        "homeScore" (Score.val 0)).awayScore = Score.unset) := by
    rw [hm3]
    simp
  have hm4 : setMatchField (⟨m.id, m.homeTeamId, m.awayTeamId, Score.val 0, Score.val 1⟩ : Match)
      "awayScore" (Score.val 0) =
      (⟨m.id, m.homeTeamId, m.awayTeamId, Score.val 0, Score.val 0⟩ : Match) := by
    rw [setMatchField_away]
  have hset4 : ¬((setMatchField (⟨m.id, m.homeTeamId, m.awayTeamId, Score.val 0, Score.val 1⟩ : Match)
      "awayScore" (Score.val 0)).homeScore = Score.unset ∨
      (setMatchField (⟨m.id, m.homeTeamId, m.awayTeamId, Score.val 0, Score.val 1⟩ : Match)
        "awayScore" (Score.val 0)).awayScore = Score.unset) := by
    rw [hm4]
    simp
  have e4 : (runOps ⟨s0, pre ++ m :: post, fun _ => none⟩
      [LedgerOp.update m.id "homeScore" (Score.val 2),
       LedgerOp.update m.id "awayScore" (Score.val 1),
       LedgerOp.update m.id "homeScore" (Score.val 0),
       LedgerOp.update m.id "awayScore" (Score.val 0)]).standings =
      processMatchResult
        (processMatchResult
          (processMatchResult
            (processMatchResult
              (processMatchResult s0
                { matchId := m.id, homeTeamId := m.homeTeamId, awayTeamId := m.awayTeamId,
                  homeScore := 2, awayScore := 1 } false)
              { matchId := m.id, homeTeamId := m.homeTeamId, awayTeamId := m.awayTeamId,
                homeScore := 2, awayScore := 1 } true)
            { matchId := m.id, homeTeamId := m.homeTeamId, awayTeamId := m.awayTeamId,
              homeScore := 0, awayScore := 1 } false)
          { matchId := m.id, homeTeamId := m.homeTeamId, awayTeamId := m.awayTeamId,
            homeScore := 0, awayScore := 1 } true)
        { matchId := m.id, homeTeamId := m.homeTeamId, awayTeamId := m.awayTeamId,
          homeScore := 0, awayScore := 0 } false := by
    show (updateMatchScore (updateMatchScore (updateMatchScore (updateMatchScore
      ⟨s0, pre ++ m :: post, fun _ => none⟩ m.id "homeScore" (Score.val 2))
      m.id "awayScore" (Score.val 1)) m.id "homeScore" (Score.val 0))
      m.id "awayScore" (Score.val 0)).standings = _
    rw [updateMatchScore_desc_incomplete_none s0 (fun _ => none) pre post m m.id
      "homeScore" (Score.val 2) hpre rfl hu1 rfl, hm1]
    rw [updateMatchScore_desc_complete_none _ _ pre post
      (⟨m.id, m.homeTeamId, m.awayTeamId, Score.val 2, Score.unset⟩ : Match) m.id
      "awayScore" (Score.val 1) hpre rfl hset2 rfl, hm2]
    rw [updateMatchScore_desc_complete_some _ _ pre post
      (⟨m.id, m.homeTeamId, m.awayTeamId, Score.val 2, Score.val 1⟩ : Match) m.id
      "homeScore" (Score.val 0) _ hpre rfl hset3 (ledgerSet_self _ _ _), hm3]
    rw [updateMatchScore_desc_complete_some _ _ pre post
      (⟨m.id, m.homeTeamId, m.awayTeamId, Score.val 0, Score.val 1⟩ : Match) m.id
      "awayScore" (Score.val 0) _ hpre rfl hset4 (ledgerSet_self _ _ _), hm4]
    rfl
  rw [e4]
  have hl1 : ((s0.map coreStats).map (fun t => applyResultToTeam t
      { matchId := m.id, homeTeamId := m.homeTeamId, awayTeamId := m.awayTeamId,
        homeScore := 2, awayScore := 1 })).map (fun t => reverseResultOnTeam t
      { matchId := m.id, homeTeamId := m.homeTeamId, awayTeamId := m.awayTeamId,
        homeScore := 2, awayScore := 1 }) = s0.map coreStats := by
    rw [List.map_map]
    have he : ∀ u ∈ s0.map coreStats,
        ((fun t => reverseResultOnTeam t
          { matchId := m.id, homeTeamId := m.homeTeamId, awayTeamId := m.awayTeamId,
            homeScore := 2, awayScore := 1 }) ∘ (fun t => applyResultToTeam t
          { matchId := m.id, homeTeamId := m.homeTeamId, awayTeamId := m.awayTeamId,
            homeScore := 2, awayScore := 1 })) u = id u := by
      intro u hu
      obtain ⟨t, ht, rfl⟩ := List.mem_map.mp hu
      exact applyResultToTeam_cancel (coreStats t) _ (hc t ht)
    rw [List.map_congr_left he, List.map_id]
  have hl2 : ((s0.map coreStats).map (fun t => applyResultToTeam t
      { matchId := m.id, homeTeamId := m.homeTeamId, awayTeamId := m.awayTeamId,
        homeScore := 0, awayScore := 1 })).map (fun t => reverseResultOnTeam t
      { matchId := m.id, homeTeamId := m.homeTeamId, awayTeamId := m.awayTeamId,
        homeScore := 0, awayScore := 1 }) = s0.map coreStats := by
    rw [List.map_map]
    have he : ∀ u ∈ s0.map coreStats,
        ((fun t => reverseResultOnTeam t
          { matchId := m.id, homeTeamId := m.homeTeamId, awayTeamId := m.awayTeamId,
            homeScore := 0, awayScore := 1 }) ∘ (fun t => applyResultToTeam t
          { matchId := m.id, homeTeamId := m.homeTeamId, awayTeamId := m.awayTeamId,
            homeScore := 0, awayScore := 1 })) u = id u := by
      intro u hu
      obtain ⟨t, ht, rfl⟩ := List.mem_map.mp hu
      exact applyResultToTeam_cancel (coreStats t) _ (hc t ht)
    rw [List.map_congr_left he, List.map_id]
  have q5 := processMatchResult_core_perm_false s0
    { matchId := m.id, homeTeamId := m.homeTeamId, awayTeamId := m.awayTeamId,
      homeScore := 2, awayScore := 1 }
  have q4 := processMatchResult_core_perm_true
    (processMatchResult s0
      { matchId := m.id, homeTeamId := m.homeTeamId, awayTeamId := m.awayTeamId,
        homeScore := 2, awayScore := 1 } false)
    { matchId := m.id, homeTeamId := m.homeTeamId, awayTeamId := m.awayTeamId,
      homeScore := 2, awayScore := 1 }
  have b2 := q4.trans (q5.map (fun t => reverseResultOnTeam t
    { matchId := m.id, homeTeamId := m.homeTeamId, awayTeamId := m.awayTeamId,
      homeScore := 2, awayScore := 1 }))
  rw [hl1] at b2
  have q3 := processMatchResult_core_perm_false
    (processMatchResult
      (processMatchResult s0
        { matchId := m.id, homeTeamId := m.homeTeamId, awayTeamId := m.awayTeamId,
          homeScore := 2, awayScore := 1 } false)
      { matchId := m.id, homeTeamId := m.homeTeamId, awayTeamId := m.awayTeamId,
        homeScore := 2, awayScore := 1 } true)
    { matchId := m.id, homeTeamId := m.homeTeamId, awayTeamId := m.awayTeamId,
      homeScore := 0, awayScore := 1 }
  have b3 := q3.trans (b2.map (fun t => applyResultToTeam t
    { matchId := m.id, homeTeamId := m.homeTeamId, awayTeamId := m.awayTeamId,
      homeScore := 0, awayScore := 1 }))
  have q2 := processMatchResult_core_perm_true
    (processMatchResult
      (processMatchResult
        (processMatchResult s0
          { matchId := m.id, homeTeamId := m.homeTeamId, awayTeamId := m.awayTeamId,
            homeScore := 2, awayScore := 1 } false)
        { matchId := m.id, homeTeamId := m.homeTeamId, awayTeamId := m.awayTeamId,
          homeScore := 2, awayScore := 1 } true)
      { matchId := m.id, homeTeamId := m.homeTeamId, awayTeamId := m.awayTeamId,
        homeScore := 0, awayScore := 1 } false)
    { matchId := m.id, homeTeamId := m.homeTeamId, awayTeamId := m.awayTeamId,
      homeScore := 0, awayScore := 1 }
  have b4 := q2.trans (b3.map (fun t => reverseResultOnTeam t
    { matchId := m.id, homeTeamId := m.homeTeamId, awayTeamId := m.awayTeamId,
      homeScore := 0, awayScore := 1 }))
  rw [hl2] at b4
  have q1 := processMatchResult_core_perm_false
    (processMatchResult
      (processMatchResult
        (processMatchResult
          (processMatchResult s0
            { matchId := m.id, homeTeamId := m.homeTeamId, awayTeamId := m.awayTeamId,
              homeScore := 2, awayScore := 1 } false)
          { matchId := m.id, homeTeamId := m.homeTeamId, awayTeamId := m.awayTeamId,
            homeScore := 2, awayScore := 1 } true)
        { matchId := m.id, homeTeamId := m.homeTeamId, awayTeamId := m.awayTeamId,
          homeScore := 0, awayScore := 1 } false)
      { matchId := m.id, homeTeamId := m.homeTeamId, awayTeamId := m.awayTeamId,
        homeScore := 0, awayScore := 1 } true)
    { matchId := m.id, homeTeamId := m.homeTeamId, awayTeamId := m.awayTeamId,
      homeScore := 0, awayScore := 0 }
  have b5 := q1.trans (b4.map (fun t => applyResultToTeam t
    { matchId := m.id, homeTeamId := m.homeTeamId, awayTeamId := m.awayTeamId,
      homeScore := 0, awayScore := 0 }))
  exact b5.trans (processMatchResult_core_perm_false s0
    { matchId := m.id, homeTeamId := m.homeTeamId, awayTeamId := m.awayTeamId,
      homeScore := 0, awayScore := 0 }).symm

/-- Witness for C5 on two zero teams: the 2-1 then 0-0 edit equals one direct
0-0 application, and that application gives each participant
`games 1, draws 1, points 1, balance 0`. -/
theorem c5_edit_overwrite_witness :
    (∀ t ∈ [defaultTeam, { defaultTeam with id := 1, name := "B" }], Consistent t) ∧
    List.Perm
      ((runOps ⟨[defaultTeam, { defaultTeam with id := 1, name := "B" }],
          [(⟨1, 0, 1, Score.unset, Score.unset⟩ : Match)], fun _ => none⟩
          [LedgerOp.update 1 "homeScore" (Score.val 2),
           LedgerOp.update 1 "awayScore" (Score.val 1),
           LedgerOp.update 1 "homeScore" (Score.val 0),
           LedgerOp.update 1 "awayScore" (Score.val 0)]).standings.map coreStats)
      ((processMatchResult [defaultTeam, { defaultTeam with id := 1, name := "B" }]
          { matchId := 1, homeTeamId := 0, awayTeamId := 1,
            homeScore := 0, awayScore := 0 } false).map coreStats) ∧
    (processMatchResult [defaultTeam, { defaultTeam with id := 1, name := "B" }]
        { matchId := 1, homeTeamId := 0, awayTeamId := 1,
          homeScore := 0, awayScore := 0 } false).map
      (fun t => (t.games, t.draws, t.points, t.balance_goals)) = [(1, 1, 1, 0), (1, 1, 1, 0)] :=
  ⟨fun t ht => by
      rcases List.mem_cons.mp ht with rfl | ht'
      · rfl
      · rcases List.mem_singleton.mp ht' with rfl
        rfl,
   c5_edit_overwrite [defaultTeam, { defaultTeam with id := 1, name := "B" }] [] []
     (⟨1, 0, 1, Score.unset, Score.unset⟩ : Match)
     (fun t ht => by
       rcases List.mem_cons.mp ht with rfl | ht'
       · rfl
       · rcases List.mem_singleton.mp ht' with rfl
         rfl)
     (fun x hx => absurd hx (List.not_mem_nil x)) rfl,
   by decide⟩

/-! ### Score validation (C9) -/

theorem digit_not_ws (c : Char) (h : isDigit10 c = true) : isJsWhitespace c = false := by
  cases hw : isJsWhitespace c with
  | false => rfl
  | true =>
    exfalso
    unfold isJsWhitespace at hw
    simp only [Bool.or_eq_true, decide_eq_true_eq] at hw
    rcases hw with (((((((h1 | h1) | h1) | h1) | h1) | h1) | h1) | h1) <;>
      (subst h1; exact absurd h (by decide))

theorem digit_ne_minus (c : Char) (h : isDigit10 c = true) : ¬c = '-' := by
  intro hc; subst hc; exact absurd h (by decide)

theorem digit_ne_plus (c : Char) (h : isDigit10 c = true) : ¬c = '+' := by
  intro hc; subst hc; exact absurd h (by decide)

theorem digit_ne_x (c : Char) (h : isDigit10 c = true) : ¬c = 'x' := by
  intro hc; subst hc; exact absurd h (by decide)

theorem digit_ne_X (c : Char) (h : isDigit10 c = true) : ¬c = 'X' := by
  intro hc; subst hc; exact absurd h (by decide)

theorem takeWhile_all_digits :
    ∀ l : List Char, l.all isDigit10 = true → l.takeWhile isDigit10 = l := by
  intro l
  induction l with
  | nil => intro _; rfl
  | cons c rest ih =>
    intro h
    rw [List.all_cons, Bool.and_eq_true] at h
    simp only [List.takeWhile_cons, h.1, if_true]
    rw [ih h.2]

theorem jsSkipWs_cons (c : Char) (l : List Char) (h : isJsWhitespace c = false) :
    jsSkipWs (c :: l) = c :: l := by
  simp [jsSkipWs, List.dropWhile, h]

theorem jsSign_minus (l : List Char) : jsSign ('-' :: l) = -1 := by
  simp [jsSign]

theorem jsSign_other (c : Char) (l : List Char) (hc : ¬c = '-') : jsSign (c :: l) = 1 := by
  simp [jsSign, hc]

theorem jsAfterSign_minus (l : List Char) : jsAfterSign ('-' :: l) = l := by
  simp [jsAfterSign]

theorem jsAfterSign_other (c : Char) (l : List Char) (h1 : ¬c = '-') (h2 : ¬c = '+') :
    jsAfterSign (c :: l) = c :: l := by
  simp [jsAfterSign, h1, h2]

theorem jsIsHex_digits (l : List Char) (h : l.all isDigit10 = true) : jsIsHex l = false := by
  cases l with
  | nil => rfl
  | cons c rest =>
    cases rest with
    | nil => simp [jsIsHex]
    | cons d rest' =>
      rw [List.all_cons, Bool.and_eq_true] at h
      have h2 := h.2
      rw [List.all_cons, Bool.and_eq_true] at h2
      have hd := h2.1
      simp [jsIsHex, digit_ne_x d hd, digit_ne_X d hd]

theorem decimalValue_fold (l : List Char) :
    l.foldl (fun acc c => acc * 10 + digitVal c) 0 = decimalValue l := rfl

theorem parseIntJS_decimal (s : String) (h : isDecimalIntString s = true) :
    parseIntJS s = some (decimalIntValue s) := by
  unfold isDecimalIntString at h
  unfold parseIntJS decimalIntValue
  cases hsl : s.toList with
  | nil =>
    rw [hsl] at h
    exact absurd h (by decide)
  | cons c rest =>
    rw [hsl] at h
    dsimp only
    by_cases hc : c = '-'
    · subst hc
      have hdd : decimalDigits rest = true := h
      have hne : rest ≠ [] := by
        intro hr
        rw [hr] at hdd
        exact absurd hdd (by decide)
      have hall : rest.all isDigit10 = true := by
        unfold decimalDigits at hdd
        rw [Bool.and_eq_true] at hdd
        exact hdd.2
      rw [jsSkipWs_cons _ _ (by decide), jsSign_minus, jsAfterSign_minus,
        jsIsHex_digits rest hall]
      simp only [Bool.false_eq_true, if_false]
      rw [takeWhile_all_digits rest hall, if_neg (by simpa using hne),
        decimalValue_fold, neg_one_mul]
    · have hdd : decimalDigits (c :: rest) = true := by
        revert h
        split
        · rename_i r heq
          intro h
          exact absurd heq (by intro hh; injection hh with h1 _; exact hc h1)
        · intro h; exact h
      have hall : (c :: rest).all isDigit10 = true := by
        unfold decimalDigits at hdd
        rw [Bool.and_eq_true] at hdd
        exact hdd.2
      have hcdig : isDigit10 c = true := by
        rw [List.all_cons, Bool.and_eq_true] at hall
        exact hall.1
      have hall2 : (c :: rest).all isDigit10 = true := by
        unfold decimalDigits at hdd
        rw [Bool.and_eq_true] at hdd
        exact hdd.2
      have hmatch : (match c :: rest with
          | '-' :: r => -decimalValue r
          | l => decimalValue l) = decimalValue (c :: rest) := by
        split
        · rename_i r heq
          exact absurd heq (by intro hh; injection hh with h1 _; exact hc h1)
        · rfl
      rw [hmatch]
      rw [jsSkipWs_cons _ _ (digit_not_ws c hcdig), jsSign_other c rest hc,
        jsAfterSign_other c rest hc (digit_ne_plus c hcdig),
        jsIsHex_digits (c :: rest) hall2]
      simp only [Bool.false_eq_true, if_false]
      rw [takeWhile_all_digits (c :: rest) hall2, if_neg (by simp),
        decimalValue_fold, one_mul]

/-- Claim C9, counterexample: the string "5abc" is not the unset marker and
is not (a decimal notation of) an integer, yet `isValidScore` accepts it,
because `parseInt` reads the numeric prefix "5" and discards the trailing
garbage. -/
theorem c9_isValidScore_counterexample :
    isValidScore "5abc" = true ∧ "5abc" ≠ "" ∧ isDecimalIntString "5abc" = false :=
  ⟨by decide, by decide, by decide⟩

/-- Claim C9 (amended): `isValidScore` accepts the empty string; on every
string in decimal integer notation it returns true exactly when the denoted
value lies in `[0, MAX_GOALS]`; and it rejects every nonempty string in which
`parseInt` finds no numeric prefix.  Strings with trailing garbage after an
in-range numeric prefix (such as "5abc") are accepted, contrary to the
original claim. -/
theorem c9_isValidScore_amended (s : String) :
    (isDecimalIntString s = true →
      (isValidScore s = true ↔ 0 ≤ decimalIntValue s ∧ decimalIntValue s ≤ MAX_GOALS)) ∧
    (s ≠ "" → parseIntJS s = none → isValidScore s = false) := by
  constructor
  · intro hd
    have hne : s ≠ "" := by
      intro he
      rw [he] at hd
      exact absurd hd (by decide)
    unfold isValidScore
    rw [if_neg hne, parseIntJS_decimal s hd]
    simp
  · intro hne hp
    unfold isValidScore
    rw [if_neg hne, hp]

/-- Witness for C9 (amended) at in-range, out-of-range and non-numeric
concrete inputs. -/
theorem c9_isValidScore_amended_witness :
    isDecimalIntString "7" = true ∧ isValidScore "7" = true ∧
    isDecimalIntString "21" = true ∧ isValidScore "21" = false ∧
    isValidScore "abc" = false := by
  refine ⟨by decide, ?_, by decide, ?_, ?_⟩
  · exact ((c9_isValidScore_amended "7").1 (by decide)).mpr (by decide)
  · have hiff := (c9_isValidScore_amended "21").1 (by decide)
    cases hb : isValidScore "21" with
    | false => rfl
    | true => exact absurd (hiff.mp hb) (by decide)
  · exact (c9_isValidScore_amended "abc").2 (by decide) (by decide)
